import Mathlib

set_option maxRecDepth 4000

/-!
Shallow embedding of the core logic of the gemini-srt-translator-web
repository (src/backend/file_utils.py, src/backend/translator.py,
src/main.py), together with theorems settling the frozen claims about it.

Python strings are modelled as Lean `String` (sequences of Unicode scalar
values, which is what `open(..., encoding='utf-8').read()` produces).
`str.strip()` is modelled by `pyStrip` (dropping leading and trailing
whitespace; Lean's `Char.isWhitespace` covers the whitespace characters
that occur in subtitle data), `str.lower()` by `pyLower` (ASCII case
folding, as in all inputs exercised here), `sep.join(...)` by `pyJoin`,
`str.split(sep)` by `pySplit`, `str.replace` by `pyReplace`, and
substring containment (`needle in haystack`) by `containsStr`.
-/

/-- Whitespace predicate used to model Python `str.strip()` /
`str.isspace()`-based truthiness on the character data that occurs in
subtitle files. -/
def wsp (c : Char) : Bool := c.isWhitespace

/-- Core of `str.strip()` on character lists: drop leading whitespace,
then drop trailing whitespace. -/
def stripChars (l : List Char) : List Char :=
  (((l.dropWhile wsp).reverse.dropWhile wsp).reverse)

/-- Model of Python `s.strip()`. -/
def pyStrip (s : String) : String := String.mk (stripChars s.data)

/-- Model of Python `sep.join(parts)`. -/
def pyJoin (sep : String) : List String → String
  | [] => ""
  | [x] => x
  | x :: xs => x ++ sep ++ pyJoin sep (xs)

/-- Model of Python `str.lower()` (ASCII case folding). -/
def pyLower (s : String) : String := String.mk (s.data.map Char.toLower)

/-- Fuel-based splitter on character lists: splits `l` at every
(non-overlapping, leftmost-first) occurrence of the separator
`s0 :: srest`.  The fuel is always instantiated with `l.length`, which
suffices since each step consumes at least one character. -/
def splitSeqF : Nat → Char → List Char → List Char → List (List Char)
  | 0, _, _, l => [l]
  | fuel + 1, s0, srest, l =>
    match l with
    | [] => [[]]
    | c :: rest =>
      if (s0 :: srest).isPrefixOf (c :: rest) then
        [] :: splitSeqF fuel s0 srest ((c :: rest).drop (srest.length + 1))
      else
        match splitSeqF fuel s0 srest rest with
        | [] => [[c]]
        | h :: t => (c :: h) :: t

/-- Model of Python `s.split(sep)` for a non-empty separator `sep`
(every occurrence splits; adjacent separators yield empty fields,
exactly as in Python). -/
def pySplit (sep s : String) : List String :=
  match sep.data with
  | [] => [s]
  | c :: cs => (splitSeqF s.data.length c cs s.data).map String.mk

/-- Model of Python `s.replace(old, new)` for non-empty `old`, via the
identity `s.replace(old, new) == new.join(s.split(old))`. -/
def pyReplace (s old new : String) : String := pyJoin new (pySplit old s)

/-- Length of the longest common prefix of two character lists; models
`len(os.path.commonprefix([a, b]))` from `file_utils.find_video_matches`. -/
def prefLen : List Char → List Char → Nat
  | a :: as, b :: bs => if a = b then prefLen as bs + 1 else 0
  | _, _ => 0

/-- Index of the last occurrence of a dot in a character list (used to
model `pathlib.PurePath.stem`). -/
def lastDotIdx (l : List Char) : Option Nat :=
  (l.foldl (fun acc c =>
    (acc.1 + 1, if c = '.' then some acc.1 else acc.2)) (0, none)).2

/-- Final path component of a POSIX-style path (models `Path(f).name`). -/
def lastComponent (s : String) : String :=
  ((pySplit "/" s).getLast?).getD s

/-- Model of `pathlib.Path(f).stem`: the final path component with its
last suffix removed; a suffix exists only when the last dot is neither
the first character nor the last character of the name. -/
def stem (f : String) : String :=
  let name := lastComponent f
  match lastDotIdx name.data with
  | some i => if 0 < i ∧ i < name.length - 1 then String.mk (name.data.take i) else name
  | none => name

/-- One row of the result of `find_video_matches` (src/backend/file_utils.py):
`\x7b'subtitle': ..., 'video': ..., 'status': ...\x7d`. -/
structure FileMatch where
  subtitle : Option String
  video : Option String
  status : String
deriving Repr, DecidableEq

/-- Insertion into the `video_stems` dict (Python dict semantics: an
existing key keeps its position and gets the new value; a new key is
appended at the end). -/
def dictUpsert (d : List (String × String)) (k v : String) : List (String × String) :=
  if (d.lookup k).isSome then d.map (fun p => if p.1 = k then (k, v) else p)
  else d ++ [(k, v)]

/-- `video_stems.pop(k)`: remove the binding for `k` (dict keys are unique). -/
def dictPop (d : List (String × String)) (k : String) : List (String × String) :=
  d.filter (fun p => p.1 ≠ k)

/-- `video_stems = \x7bv.stem.lower(): v for v in video_files\x7d`. -/
def buildVideoStems (videos : List String) : List (String × String) :=
  videos.foldl (fun d v => dictUpsert d (pyLower (stem v)) v) []

/-- The fuzzy-match scan of `find_video_matches`: fold over the remaining
video stems keeping the best (strictly greater) common-prefix score,
starting from `(None, 0)`. Returns the best video path and its score. -/
def bestFuzzy (ss : String) (pool : List (String × String)) : Option String × Nat :=
  pool.foldl (fun acc p =>
    let score := prefLen ss.data p.1.data
    if score > acc.2 then (some p.2, score) else acc) (none, 0)

/-- Processing of one subtitle file inside the loop of
`find_video_matches`: exact stem lookup first, else the fuzzy scan with
the `highest_score / len(subtitle_stem) > 0.7` acceptance test.  The
float comparison `s / l > 0.7` is modelled as `10 * s > 7 * l`, which
agrees with the IEEE-754 evaluation for every subtitle stem of length
below 10^15 (the two can only disagree within 5e-17 of 7/10, which a
rational with such a small denominator cannot reach). -/
def matchOne (pool : List (String × String)) (sub : String) :
    FileMatch × List (String × String) :=
  match pool.lookup (pyLower (stem sub)) with
  | some v => (⟨some sub, some v, "Matched"⟩, dictPop pool (pyLower (stem sub)))
  | none =>
    match bestFuzzy (pyLower (stem sub)) pool with
    | (some vp, hi) =>
      if 10 * hi > 7 * (pyLower (stem sub)).length then
        (⟨some sub, some vp, "Matched"⟩, dictPop pool (pyLower (stem vp)))
      else (⟨some sub, none, "No match"⟩, pool)
    | (none, _) => (⟨some sub, none, "No match"⟩, pool)

/-- Model of `find_video_matches(subtitle_files, video_files)`
(src/backend/file_utils.py, lines 16-63). -/
def find_video_matches (subtitle_files video_files : List String) : List FileMatch :=
  let pool0 := buildVideoStems video_files
  let step := fun (acc : List FileMatch × List (String × String)) s =>
    let r := matchOne acc.2 s
    (acc.1 ++ [r.1], r.2)
  let res := subtitle_files.foldl step ([], pool0)
  res.1 ++ res.2.map (fun p => ⟨none, some p.2, "No subtitles"⟩)

/-! ### Translation cache key (src/backend/translator.py, `_get_cache_key`)

The source computes
`hashlib.md5(json.dumps(key_data, sort_keys=True).encode()).hexdigest()`
over `key_data = \x7b'text': text, 'model': self.model_name,
'language': config.get('language'),
'language_code': config.get('language_code')\x7d`.
We model the key as the canonical `json.dumps(key_data, sort_keys=True)`
string itself (with Python's default `ensure_ascii=True` escaping and
`', '` / `': '` separators, keys in sorted order
language < language_code < model < text); the final MD5 hexdigest step
is abstracted away, i.e. the digest is treated as an injective function
of its input (true up to MD5 collisions, which no pair of realistic
inputs exhibits and which no mathematical proof of distinctness could
circumvent). -/

/-- Lower-case hex digit, as produced by Python's `'\u%04x'` escapes. -/
def hexDigit (d : Nat) : Char :=
  if d < 10 then Char.ofNat (48 + d) else Char.ofNat (87 + d)

/-- Four-digit lower-case hex rendering of `v < 0x10000`. -/
def hex4 (v : Nat) : List Char :=
  [hexDigit (v / 4096 % 16), hexDigit (v / 256 % 16),
   hexDigit (v / 16 % 16), hexDigit (v % 16)]

/-- JSON escaping of one character, exactly as Python's
`json.encoder.py_encode_basestring_ascii`: short escapes for the seven
special characters, `\uXXXX` for every other character outside
`0x20..0x7e` (with a surrogate pair for astral characters), the
character itself otherwise. -/
def escapeChar (c : Char) : List Char :=
  if c = '"' then ['\\', '"']
  else if c = '\\' then ['\\', '\\']
  else if c.toNat = 8 then ['\\', 'b']
  else if c.toNat = 9 then ['\\', 't']
  else if c.toNat = 10 then ['\\', 'n']
  else if c.toNat = 12 then ['\\', 'f']
  else if c.toNat = 13 then ['\\', 'r']
  else if c.toNat < 0x20 ∨ 0x7e < c.toNat then
    if c.toNat < 0x10000 then '\\' :: 'u' :: hex4 c.toNat
    else ('\\' :: 'u' :: hex4 (0xd800 + (c.toNat - 0x10000) / 0x400)) ++
         ('\\' :: 'u' :: hex4 (0xdc00 + (c.toNat - 0x10000) % 0x400))
  else [c]

/-- JSON escaping of a character sequence. -/
def escapeList : List Char → List Char
  | [] => []
  | c :: rest => escapeChar c ++ escapeList rest

/-- JSON rendering of a Python string value: `"` escaped-content `"`. -/
def encStr (s : String) : List Char := '"' :: (escapeList s.data ++ ['"'])

/-- JSON rendering of an optional string (`None` renders as `null`,
which is what `config.get('language')` produces when the key is absent). -/
def encVal : Option String → List Char
  | none => ['n', 'u', 'l', 'l']
  | some s => encStr s

/-- The translator state that `_get_cache_key` depends on:
`self.model_name` and the `language` / `language_code` entries of
`self.config` (absent entries give `None`). -/
structure TransCfg where
  language : Option String
  language_code : Option String
  model_name : String
deriving Repr, DecidableEq

/-- Model of `_get_cache_key(self, text)` (src/backend/translator.py,
lines 172-180): the canonical sorted-keys JSON serialization of
`\x7b'text', 'model', 'language', 'language_code'\x7d` (see section
comment above: the MD5 digest of this string is abstracted away). -/
def get_cache_key (cfg : TransCfg) (text : String) : String :=
  String.mk (
    "\x7b\"language\": ".data ++ encVal cfg.language ++
    ", \"language_code\": ".data ++ encVal cfg.language_code ++
    ", \"model\": ".data ++ encStr cfg.model_name ++
    ", \"text\": ".data ++ encStr text ++ "\x7d".data)

/-- Value of a lower-case hex digit character. -/
def hexVal (c : Char) : Option Nat :=
  if '0' ≤ c ∧ c ≤ '9' then some (c.toNat - 48)
  else if 'a' ≤ c ∧ c ≤ 'f' then some (c.toNat - 87)
  else none

/-- Value of four hex digit characters. -/
def hex4Val (a b c d : Char) : Option Nat :=
  match hexVal a, hexVal b, hexVal c, hexVal d with
  | some x, some y, some z, some w => some (x * 4096 + y * 256 + z * 16 + w)
  | _, _, _, _ => none

/-- Code point of a short JSON escape character. -/
def shortEsc (c : Char) : Option Nat :=
  if c = '\\' then some 92
  else if c = '"' then some 34
  else if c = 'b' then some 8
  else if c = 'f' then some 12
  else if c = 'n' then some 10
  else if c = 'r' then some 13
  else if c = 't' then some 9
  else none

/-- Decoder for one JSON escape sequence (the part after the backslash):
short escapes, `\\uXXXX`, and surrogate pairs.  Returns the decoded code
point and the remaining input. -/
def decodeEsc : List Char → Option (Nat × List Char)
  | [] => none
  | e :: rest1 =>
    if e = 'u' then
      match rest1 with
      | a :: b :: c2 :: d2 :: rest2 =>
        match hex4Val a b c2 d2 with
        | none => none
        | some v =>
          if 0xd800 ≤ v ∧ v < 0xdc00 then
            match rest2 with
            | b1 :: u1 :: a3 :: b3 :: c3 :: d3 :: rest3 =>
              if b1 = '\\' ∧ u1 = 'u' then
                match hex4Val a3 b3 c3 d3 with
                | none => none
                | some w =>
                  if 0xdc00 ≤ w ∧ w < 0xe000 then
                    some (0x10000 + (v - 0xd800) * 0x400 + (w - 0xdc00), rest3)
                  else none
              else none
            | _ => none
          else some (v, rest2)
      | _ => none
    else
      match shortEsc e with
      | none => none
      | some n => some (n, rest1)

/-- Fuel-based decoder for a JSON string body (after the opening quote),
returning the decoded code points and the remaining input after the
closing quote.  Left inverse of `escapeList` (see
`decodeStrF_escapeList`); used to prove injectivity of the cache-key
serialization.  The fuel is always instantiated large enough (each step
consumes at least one input character). -/
def decodeStrF : Nat → List Char → Option (List Nat × List Char)
  | 0, _ => none
  | fuel + 1, l =>
    match l with
    | [] => none
    | c :: rest =>
      if c = '"' then some ([], rest)
      else if c = '\\' then
        match decodeEsc rest with
        | some (n, rest2) =>
          match decodeStrF fuel rest2 with
          | some (ns, r) => some (n :: ns, r)
          | none => none
        | none => none
      else
        match decodeStrF fuel rest with
        | some (ns, r) => some (c.toNat :: ns, r)
        | none => none

/-- Decoder for a JSON string body, with the fuel tied to the input
length. -/
def decodeStr (l : List Char) : Option (List Nat × List Char) :=
  decodeStrF (l.length + 1) l

/-- Decoder for a JSON value that is either `null` or a string. -/
def decodeVal (l : List Char) : Option (Option (List Nat) × List Char) :=
  match l with
  | 'n' :: 'u' :: 'l' :: 'l' :: rest => some (none, rest)
  | '"' :: rest =>
    match decodeStr rest with
    | some (ns, r) => some (some ns, r)
    | none => none
  | _ => none

/-- Consume an expected literal prefix. -/
def dropLit : List Char → List Char → Option (List Char)
  | [], l => some l
  | c :: cs, d :: ds => if c = d then dropLit cs ds else none
  | _ :: _, [] => none

/-- Decoder for a JSON value that must be a string (an opening quote
followed by a string body). -/
def decodeQuoted (l : List Char) : Option (List Nat × List Char) :=
  match l with
  | [] => none
  | c :: r => if c = '"' then decodeStr r else none

/-- Decoder for the whole serialized cache key; left inverse of the
serialization in `get_cache_key`. -/
def decodeKey (l : List Char) :
    Option (Option (List Nat) × Option (List Nat) × List Nat × List Nat) :=
  match dropLit "\x7b\"language\": ".data l with
  | none => none
  | some l1 =>
    match decodeVal l1 with
    | none => none
    | some (lv, l2) =>
      match dropLit ", \"language_code\": ".data l2 with
      | none => none
      | some l3 =>
        match decodeVal l3 with
        | none => none
        | some (cv, l4) =>
          match dropLit ", \"model\": ".data l4 with
          | none => none
          | some l5 =>
            match decodeQuoted l5 with
            | none => none
            | some (mv, l6) =>
              match dropLit ", \"text\": ".data l6 with
              | none => none
              | some l7 =>
                match decodeQuoted l7 with
                | none => none
                | some (tv, l8) =>
                  match dropLit "\x7d".data l8 with
                  | none => none
                  | some _ => some (lv, cv, mv, tv)

theorem hexVal_hexDigit (d : Nat) (h : d < 16) : hexVal (hexDigit d) = some d := by
  interval_cases d <;> decide

theorem hex4Val_of_hex4 (v : Nat) (h : v < 65536) :
    hex4Val (hexDigit (v / 4096 % 16)) (hexDigit (v / 256 % 16))
      (hexDigit (v / 16 % 16)) (hexDigit (v % 16)) = some v := by
  unfold hex4Val
  rw [hexVal_hexDigit _ (by omega), hexVal_hexDigit _ (by omega),
    hexVal_hexDigit _ (by omega), hexVal_hexDigit _ (by omega)]
  dsimp only
  congr 1
  omega

theorem escapeChar_length_pos (c : Char) : 0 < (escapeChar c).length := by
  unfold escapeChar
  repeat' split
  all_goals simp [hex4]

theorem decodeEsc_short (e : Char) (n : Nat) (hu : ¬ e = 'u')
    (h : shortEsc e = some n) (l : List Char) :
    decodeEsc (e :: l) = some (n, l) := by
  simp [decodeEsc, hu, h]

theorem decodeEsc_u (a b c2 d2 : Char) (v : Nat)
    (hv : hex4Val a b c2 d2 = some v) (hbmp : ¬ (0xd800 ≤ v ∧ v < 0xdc00))
    (l : List Char) :
    decodeEsc ('u' :: a :: b :: c2 :: d2 :: l) = some (v, l) := by
  simp [decodeEsc, hv, hbmp]

theorem decodeEsc_surrogate (a b c2 d2 a3 b3 c3 d3 : Char) (v w : Nat)
    (hv : hex4Val a b c2 d2 = some v) (hv2 : 0xd800 ≤ v ∧ v < 0xdc00)
    (hw : hex4Val a3 b3 c3 d3 = some w) (hw2 : 0xdc00 ≤ w ∧ w < 0xe000)
    (l : List Char) :
    decodeEsc ('u' :: a :: b :: c2 :: d2 ::
               '\\' :: 'u' :: a3 :: b3 :: c3 :: d3 :: l) =
      some (0x10000 + (v - 0xd800) * 0x400 + (w - 0xdc00), l) := by
  simp [decodeEsc, hv, hv2.1, hv2.2, hw, hw2.1, hw2.2]

theorem decodeStrF_quote (fuel : Nat) (rest : List Char) :
    decodeStrF (fuel + 1) ('"' :: rest) = some ([], rest) := by
  simp [decodeStrF]

theorem decodeStrF_plain (fuel : Nat) (c : Char) (l : List Char)
    (hq : ¬ c = '"') (hb : ¬ c = '\\') :
    decodeStrF (fuel + 1) (c :: l) =
      (match decodeStrF fuel l with
       | some (ns, r) => some (c.toNat :: ns, r)
       | none => none) := by
  simp only [decodeStrF]
  rw [if_neg hq, if_neg hb]

theorem decodeStrF_esc (fuel : Nat) (e : List Char) (n : Nat) (tail : List Char)
    (h : decodeEsc e = some (n, tail)) :
    decodeStrF (fuel + 1) ('\\' :: e) =
      (match decodeStrF fuel tail with
       | some (ns, r) => some (n :: ns, r)
       | none => none) := by
  simp only [decodeStrF]
  rw [if_neg (show ¬ ('\\' : Char) = '"' by decide), if_true, h]

/-- `decodeStrF` is a left inverse of the JSON string escaping: with
enough fuel, decoding the escaped content followed by the closing quote
recovers the original code points and the input after the quote. -/
theorem decodeStrF_escapeList (s : List Char) :
    ∀ (fuel : Nat) (rest : List Char), (escapeList s).length < fuel →
      decodeStrF fuel (escapeList s ++ '"' :: rest) =
        some (s.map Char.toNat, rest) := by
  induction s with
  | nil =>
    intro fuel rest h
    obtain ⟨fuel0, rfl⟩ : ∃ f, fuel = f + 1 := ⟨fuel - 1, by omega⟩
    rw [show escapeList [] = [] from rfl, List.nil_append, decodeStrF_quote]
    rfl
  | cons c s ih =>
    intro fuel rest h
    have hpos : 0 < (escapeChar c).length := escapeChar_length_pos c
    have hlen : (escapeList (c :: s)).length =
        (escapeChar c).length + (escapeList s).length := by
      rw [show escapeList (c :: s) = escapeChar c ++ escapeList s from rfl,
        List.length_append]
    obtain ⟨fuel0, rfl⟩ : ∃ f, fuel = f + 1 := ⟨fuel - 1, by omega⟩
    have hfuel : (escapeChar c).length + (escapeList s).length < fuel0 + 1 := by
      omega
    have hval : c.toNat < 0xd800 ∨ (0xe000 ≤ c.toNat ∧ c.toNat < 0x110000) :=
      c.valid
    rw [show escapeList (c :: s) = escapeChar c ++ escapeList s from rfl,
      List.append_assoc]
    by_cases hq : c = '"'
    · subst hq
      rw [show escapeChar '"' = ['\\', '"'] from rfl]
      rw [show (['\\', '"'] : List Char) ++ (escapeList s ++ '"' :: rest) =
        '\\' :: ('"' :: (escapeList s ++ '"' :: rest)) from rfl]
      rw [decodeStrF_esc fuel0 _ 34 (escapeList s ++ '"' :: rest)
        (decodeEsc_short '"' 34 (by decide) (by decide) _)]
      rw [ih fuel0 rest (by rw [show escapeChar '"' = ['\\', '"'] from rfl] at hfuel; simp at hfuel; omega)]
      rfl
    · by_cases hb : c = '\\'
      · subst hb
        rw [show escapeChar '\\' = ['\\', '\\'] from rfl]
        rw [show (['\\', '\\'] : List Char) ++ (escapeList s ++ '"' :: rest) =
          '\\' :: ('\\' :: (escapeList s ++ '"' :: rest)) from rfl]
        rw [decodeStrF_esc fuel0 _ 92 (escapeList s ++ '"' :: rest)
          (decodeEsc_short '\\' 92 (by decide) (by decide) _)]
        rw [ih fuel0 rest (by rw [show escapeChar '\\' = ['\\', '\\'] from rfl] at hfuel; simp at hfuel; omega)]
        rfl
      · by_cases h8 : c.toNat = 8
        · have hesc : escapeChar c = ['\\', 'b'] := by
            unfold escapeChar; rw [if_neg hq, if_neg hb, if_pos h8]
          rw [hesc] at hfuel ⊢
          rw [show (['\\', 'b'] : List Char) ++ (escapeList s ++ '"' :: rest) =
            '\\' :: ('b' :: (escapeList s ++ '"' :: rest)) from rfl]
          rw [decodeStrF_esc fuel0 _ 8 (escapeList s ++ '"' :: rest)
            (decodeEsc_short 'b' 8 (by decide) (by decide) _)]
          rw [ih fuel0 rest (by simp at hfuel; omega)]
          dsimp only [List.map_cons]
          rw [h8]
        · by_cases h9 : c.toNat = 9
          · have hesc : escapeChar c = ['\\', 't'] := by
              unfold escapeChar; rw [if_neg hq, if_neg hb, if_neg h8, if_pos h9]
            rw [hesc] at hfuel ⊢
            rw [show (['\\', 't'] : List Char) ++ (escapeList s ++ '"' :: rest) =
              '\\' :: ('t' :: (escapeList s ++ '"' :: rest)) from rfl]
            rw [decodeStrF_esc fuel0 _ 9 (escapeList s ++ '"' :: rest)
              (decodeEsc_short 't' 9 (by decide) (by decide) _)]
            rw [ih fuel0 rest (by simp at hfuel; omega)]
            dsimp only [List.map_cons]
            rw [h9]
          · by_cases h10 : c.toNat = 10
            · have hesc : escapeChar c = ['\\', 'n'] := by
                unfold escapeChar
                rw [if_neg hq, if_neg hb, if_neg h8, if_neg h9, if_pos h10]
              rw [hesc] at hfuel ⊢
              rw [show (['\\', 'n'] : List Char) ++ (escapeList s ++ '"' :: rest) =
                '\\' :: ('n' :: (escapeList s ++ '"' :: rest)) from rfl]
              rw [decodeStrF_esc fuel0 _ 10 (escapeList s ++ '"' :: rest)
                (decodeEsc_short 'n' 10 (by decide) (by decide) _)]
              rw [ih fuel0 rest (by simp at hfuel; omega)]
              dsimp only [List.map_cons]
              rw [h10]
            · by_cases h12 : c.toNat = 12
              · have hesc : escapeChar c = ['\\', 'f'] := by
                  unfold escapeChar
                  rw [if_neg hq, if_neg hb, if_neg h8, if_neg h9, if_neg h10,
                    if_pos h12]
                rw [hesc] at hfuel ⊢
                rw [show (['\\', 'f'] : List Char) ++ (escapeList s ++ '"' :: rest) =
                  '\\' :: ('f' :: (escapeList s ++ '"' :: rest)) from rfl]
                rw [decodeStrF_esc fuel0 _ 12 (escapeList s ++ '"' :: rest)
                  (decodeEsc_short 'f' 12 (by decide) (by decide) _)]
                rw [ih fuel0 rest (by simp at hfuel; omega)]
                dsimp only [List.map_cons]
                rw [h12]
              · by_cases h13 : c.toNat = 13
                · have hesc : escapeChar c = ['\\', 'r'] := by
                    unfold escapeChar
                    rw [if_neg hq, if_neg hb, if_neg h8, if_neg h9, if_neg h10,
                      if_neg h12, if_pos h13]
                  rw [hesc] at hfuel ⊢
                  rw [show (['\\', 'r'] : List Char) ++ (escapeList s ++ '"' :: rest) =
                    '\\' :: ('r' :: (escapeList s ++ '"' :: rest)) from rfl]
                  rw [decodeStrF_esc fuel0 _ 13 (escapeList s ++ '"' :: rest)
                    (decodeEsc_short 'r' 13 (by decide) (by decide) _)]
                  rw [ih fuel0 rest (by simp at hfuel; omega)]
                  dsimp only [List.map_cons]
                  rw [h13]
                · by_cases hrange : c.toNat < 0x20 ∨ 0x7e < c.toNat
                  · by_cases hbmp : c.toNat < 0x10000
                    · have hesc : escapeChar c = '\\' :: 'u' :: hex4 c.toNat := by
                        unfold escapeChar
                        rw [if_neg hq, if_neg hb, if_neg h8, if_neg h9, if_neg h10,
                          if_neg h12, if_neg h13, if_pos hrange, if_pos hbmp]
                      rw [hesc] at hfuel ⊢
                      rw [show ('\\' :: 'u' :: hex4 c.toNat) ++
                          (escapeList s ++ '"' :: rest) =
                        '\\' :: ('u' :: hexDigit (c.toNat / 4096 % 16) ::
                          hexDigit (c.toNat / 256 % 16) ::
                          hexDigit (c.toNat / 16 % 16) :: hexDigit (c.toNat % 16) ::
                          (escapeList s ++ '"' :: rest)) from rfl]
                      rw [decodeStrF_esc fuel0 _ c.toNat (escapeList s ++ '"' :: rest)
                        (decodeEsc_u _ _ _ _ c.toNat
                          (hex4Val_of_hex4 c.toNat hbmp) (by omega) _)]
                      rw [ih fuel0 rest (by simp [hex4] at hfuel; omega)]
                      rfl
                    · have hesc : escapeChar c =
                          ('\\' :: 'u' :: hex4 (0xd800 + (c.toNat - 0x10000) / 0x400)) ++
                          ('\\' :: 'u' :: hex4 (0xdc00 + (c.toNat - 0x10000) % 0x400)) := by
                        unfold escapeChar
                        rw [if_neg hq, if_neg hb, if_neg h8, if_neg h9, if_neg h10,
                          if_neg h12, if_neg h13, if_pos hrange, if_neg hbmp]
                      rw [hesc] at hfuel ⊢
                      have hcv : c.toNat < 0x110000 := by omega
                      generalize hgi : 0xd800 + (c.toNat - 0x10000) / 0x400 = hi at hfuel ⊢
                      generalize hlo : 0xdc00 + (c.toNat - 0x10000) % 0x400 = lo at hfuel ⊢
                      have hib : 0xd800 ≤ hi ∧ hi < 0xdc00 := by omega
                      have hlb : 0xdc00 ≤ lo ∧ lo < 0xe000 := by omega
                      rw [show (('\\' :: 'u' :: hex4 hi) ++ ('\\' :: 'u' :: hex4 lo)) ++
                          (escapeList s ++ '"' :: rest) =
                        '\\' :: ('u' :: hexDigit (hi / 4096 % 16) ::
                          hexDigit (hi / 256 % 16) :: hexDigit (hi / 16 % 16) ::
                          hexDigit (hi % 16) ::
                        '\\' :: 'u' :: hexDigit (lo / 4096 % 16) ::
                          hexDigit (lo / 256 % 16) :: hexDigit (lo / 16 % 16) ::
                          hexDigit (lo % 16) ::
                          (escapeList s ++ '"' :: rest)) from rfl]
                      rw [decodeStrF_esc fuel0 _
                          (0x10000 + (hi - 0xd800) * 0x400 + (lo - 0xdc00))
                          (escapeList s ++ '"' :: rest)
                        (decodeEsc_surrogate _ _ _ _ _ _ _ _ hi lo
                          (hex4Val_of_hex4 hi (by omega)) hib
                          (hex4Val_of_hex4 lo (by omega)) hlb _)]
                      rw [ih fuel0 rest (by simp [hex4] at hfuel; omega)]
                      have hmerge : 0x10000 + (hi - 0xd800) * 0x400 + (lo - 0xdc00) =
                          c.toNat := by omega
                      dsimp only [List.map_cons]
                      rw [hmerge]
                  · have hesc : escapeChar c = [c] := by
                      unfold escapeChar
                      rw [if_neg hq, if_neg hb, if_neg h8, if_neg h9, if_neg h10,
                        if_neg h12, if_neg h13, if_neg hrange]
                    rw [hesc] at hfuel ⊢
                    rw [show ([c] : List Char) ++ (escapeList s ++ '"' :: rest) =
                      c :: (escapeList s ++ '"' :: rest) from rfl]
                    rw [decodeStrF_plain fuel0 c _ hq hb]
                    rw [ih fuel0 rest (by simp at hfuel; omega)]
                    rfl

/-- `decodeStr` (with its self-computed fuel) decodes any escaped string
followed by a closing quote and arbitrary remaining input. -/
theorem decodeStr_escapeList (s : List Char) (rest : List Char) :
    decodeStr (escapeList s ++ '"' :: rest) = some (s.map Char.toNat, rest) := by
  unfold decodeStr
  exact decodeStrF_escapeList s _ rest (by simp [List.length_append]; omega)

theorem decodeVal_encVal (v : Option String) (rest : List Char) :
    decodeVal (encVal v ++ rest) =
      some (v.map (fun s => s.data.map Char.toNat), rest) := by
  cases v with
  | none => rfl
  | some s =>
    show decodeVal ('"' :: ((escapeList s.data ++ ['"']) ++ rest)) = _
    rw [List.append_assoc, List.singleton_append]
    show (match decodeStr (escapeList s.data ++ '"' :: rest) with
      | some (ns, r) => some (some ns, r)
      | none => none) = _
    rw [decodeStr_escapeList]
    rfl

theorem decodeQuoted_encStr (s : String) (rest : List Char) :
    decodeQuoted (encStr s ++ rest) = some (s.data.map Char.toNat, rest) := by
  show decodeQuoted ('"' :: ((escapeList s.data ++ ['"']) ++ rest)) = _
  rw [List.append_assoc, List.singleton_append]
  show (if ('"' : Char) = '"' then decodeStr (escapeList s.data ++ '"' :: rest)
    else none) = _
  rw [if_pos rfl, decodeStr_escapeList]

theorem dropLit_append (lit l : List Char) : dropLit lit (lit ++ l) = some l := by
  induction lit with
  | nil => rfl
  | cons c cs ih => simp [dropLit, ih]

/-- Decoding the serialized cache key recovers all four components of
the key tuple: the cache-key serialization is injective. -/
theorem decodeKey_get_cache_key (cfg : TransCfg) (text : String) :
    decodeKey (get_cache_key cfg text).data =
      some (cfg.language.map (fun s => s.data.map Char.toNat),
            cfg.language_code.map (fun s => s.data.map Char.toNat),
            cfg.model_name.data.map Char.toNat,
            text.data.map Char.toNat) := by
  show decodeKey ("\x7b\"language\": ".data ++ encVal cfg.language ++
    ", \"language_code\": ".data ++ encVal cfg.language_code ++
    ", \"model\": ".data ++ encStr cfg.model_name ++
    ", \"text\": ".data ++ encStr text ++ "\x7d".data) = _
  unfold decodeKey
  have hassoc : "\x7b\"language\": ".data ++ encVal cfg.language ++
      ", \"language_code\": ".data ++ encVal cfg.language_code ++
      ", \"model\": ".data ++ encStr cfg.model_name ++
      ", \"text\": ".data ++ encStr text ++ "\x7d".data =
    "\x7b\"language\": ".data ++ (encVal cfg.language ++
      (", \"language_code\": ".data ++ (encVal cfg.language_code ++
      (", \"model\": ".data ++ (encStr cfg.model_name ++
      (", \"text\": ".data ++ (encStr text ++ "\x7d".data))))))) := by
    simp [List.append_assoc]
  rw [hassoc]
  rw [dropLit_append]
  dsimp only
  rw [decodeVal_encVal]
  dsimp only
  rw [dropLit_append]
  dsimp only
  rw [decodeVal_encVal]
  dsimp only
  rw [dropLit_append]
  dsimp only
  rw [decodeQuoted_encStr]
  dsimp only
  rw [dropLit_append]
  dsimp only
  rw [show (encStr text ++ "\x7d".data : List Char) =
    encStr text ++ ("\x7d".data ++ []) from by rw [List.append_nil]]
  rw [decodeQuoted_encStr]
  dsimp only
  rw [dropLit_append]

theorem char_toNat_injective : Function.Injective Char.toNat := by
  intro a b h
  exact Char.eq_of_val_eq (UInt32.toNat.inj h)

theorem string_codepoints_injective :
    Function.Injective (fun s : String => s.data.map Char.toNat) := by
  intro a b h
  apply String.ext
  exact List.map_injective_iff.mpr char_toNat_injective h

theorem get_cache_key_injective (cfg1 cfg2 : TransCfg) (t1 t2 : String)
    (h : get_cache_key cfg1 t1 = get_cache_key cfg2 t2) :
    cfg1 = cfg2 ∧ t1 = t2 := by
  have hdec : some (cfg1.language.map (fun s => s.data.map Char.toNat),
      cfg1.language_code.map (fun s => s.data.map Char.toNat),
      cfg1.model_name.data.map Char.toNat,
      t1.data.map Char.toNat) =
    some (cfg2.language.map (fun s => s.data.map Char.toNat),
      cfg2.language_code.map (fun s => s.data.map Char.toNat),
      cfg2.model_name.data.map Char.toNat,
      t2.data.map Char.toNat) := by
    rw [← decodeKey_get_cache_key cfg1 t1, ← decodeKey_get_cache_key cfg2 t2, h]
  injection hdec with hdec
  obtain ⟨hl, hc, hm, ht⟩ :
      cfg1.language.map (fun s => s.data.map Char.toNat) =
        cfg2.language.map (fun s => s.data.map Char.toNat) ∧
      cfg1.language_code.map (fun s => s.data.map Char.toNat) =
        cfg2.language_code.map (fun s => s.data.map Char.toNat) ∧
      cfg1.model_name.data.map Char.toNat = cfg2.model_name.data.map Char.toNat ∧
      t1.data.map Char.toNat = t2.data.map Char.toNat := by
    refine ⟨congrArg Prod.fst hdec, ?_, ?_, ?_⟩
    · exact congrArg (fun p => p.2.1) hdec
    · exact congrArg (fun p => p.2.2.1) hdec
    · exact congrArg (fun p => p.2.2.2) hdec
  refine ⟨?_, string_codepoints_injective ht⟩
  cases cfg1 with
  | mk lang1 code1 model1 =>
    cases cfg2 with
    | mk lang2 code2 model2 =>
      have h1 : lang1 = lang2 :=
        Option.map_injective string_codepoints_injective hl
      have h2 : code1 = code2 :=
        Option.map_injective string_codepoints_injective hc
      have h3 : model1 = model2 := string_codepoints_injective hm
      rw [h1, h2, h3]

/-- **C4.** The translation cache key is a function of exactly the tuple
(source text, model identifier, target language): equal tuples give
equal keys, and any difference in the model identifier or in the target
language (the `language` / `language_code` config entries) forces a
different key, so a value stored under one is never returned as a hit
for the other.  (The key is modelled as the canonical sorted-keys JSON
serialization that the source feeds to MD5; the digest step is
abstracted as injective — see the section comment at `get_cache_key`.) -/
theorem cache_key_function_of_tuple (cfg1 cfg2 : TransCfg) (t1 t2 : String) :
    (cfg1 = cfg2 ∧ t1 = t2 → get_cache_key cfg1 t1 = get_cache_key cfg2 t2) ∧
    (cfg1.model_name ≠ cfg2.model_name ∨ cfg1.language ≠ cfg2.language ∨
        cfg1.language_code ≠ cfg2.language_code →
      get_cache_key cfg1 t1 ≠ get_cache_key cfg2 t2) := by
  constructor
  · rintro ⟨rfl, rfl⟩
    rfl
  · intro hne heq
    obtain ⟨hcfg, -⟩ := get_cache_key_injective cfg1 cfg2 t1 t2 heq
    subst hcfg
    rcases hne with h | h | h <;> exact h rfl

/-- Witness for C4: two lookups for the same text and target language
but different models get different cache keys. -/
theorem cache_key_function_of_tuple_witness :
    ("gemini-2.5-flash" : String) ≠ "gemini-1.5-flash" ∧
    get_cache_key ⟨some "Dutch", some "nl", "gemini-2.5-flash"⟩ "hello" ≠
      get_cache_key ⟨some "Dutch", some "nl", "gemini-1.5-flash"⟩ "hello" :=
  ⟨by decide,
    (cache_key_function_of_tuple ⟨some "Dutch", some "nl", "gemini-2.5-flash"⟩
      ⟨some "Dutch", some "nl", "gemini-1.5-flash"⟩ "hello" "hello").2
      (Or.inl (by decide))⟩


/-! ### Retry layer (src/backend/translator.py, `_translate_with_retry`)

The remote `model.generate_content_async` call is modelled by an oracle
`api : Nat → ApiOutcome` indexed by a global call counter threaded
through `TransState`.  Each model state carries the shared translation
cache (`Translator._cache`, an insertion-ordered map modelled as an
association list with newest binding first), the number of remote calls
issued so far, and the number of backoff sleeps
(`await asyncio.sleep(delay)`, line 268) executed so far.  A Python
`return` is modelled as `Except.ok` and an uncaught `raise` as
`Except.error`, so that "the function returns rather than raises" is
visible in the embedding. -/

/-- Outcome of one remote generate call: a response carrying text (the
empty string models a falsy `response.text`), a response whose
`prompt_feedback.block_reason` is set, or an SDK exception with the
given message. -/
inductive ApiOutcome where
  | text (s : String)
  | blocked (reason : String)
  | exn (msg : String)

/-- The try-block of one attempt (lines 220-239): the remote call plus
the empty-response checks.  `.error` carries the message of the raised
exception (`str(e)`). -/
def attemptResult : ApiOutcome → Except String String
  | .text s => if s = "" then .error "Empty response from model" else .ok s
  | .blocked r => .error ("Content blocked due to: " ++ r)
  | .exn m => .error m

/-- Does `needle` occur as a contiguous run at some position of the
second list? -/
def containsSeq (needle : List Char) : List Char → Bool
  | [] => needle.isEmpty
  | c :: rest => needle.isPrefixOf (c :: rest) || containsSeq needle rest

/-- Python substring containment `needle in haystack`. -/
def containsStr (needle hay : String) : Bool := containsSeq needle.data hay.data

/-- The rate-limit classification of line 259:
`any(x in error_msg for x in ["429", "quota", "rate limit"])` (applied
to the lower-cased message). -/
def isRateLimitErr (m : String) : Bool :=
  containsStr "429" m || containsStr "quota" m || containsStr "rate limit" m

/-- The safety classification of line 263:
`"safety" in error_msg or "block" in error_msg` (applied to the
lower-cased message). -/
def isSafetyErr (m : String) : Bool :=
  containsStr "safety" m || containsStr "block" m

/-- State threaded through the translator model: the shared cache, the
number of remote calls issued, and the number of backoff sleeps
executed. -/
structure TransState where
  cache : List (String × String)
  callIdx : Nat
  backoffs : Nat
deriving Repr, DecidableEq

/-- The retry loop of `_translate_with_retry` (lines 219-276), recursing
on the number of remaining attempts (`max_retries - attempt`).  One
step: issue the call; on success strip and cache the result and return
it; on failure classify the lower-cased message — rate-limit errors
back off and retry, safety errors return the original text immediately,
all other errors back off and retry; when attempts run out, return the
original text (line 276 `return text`). -/
def retryLoop (api : Nat → ApiOutcome) (text cacheKey : String) :
    Nat → TransState → Except String (String × TransState)
  | 0, st => .ok (text, st)
  | remaining + 1, st =>
    let st1 : TransState := { st with callIdx := st.callIdx + 1 }
    match attemptResult (api st.callIdx) with
    | .ok s =>
      let translated := pyStrip s
      .ok (translated, { st1 with cache := (cacheKey, translated) :: st1.cache })
    | .error e =>
      let m := pyLower e
      if isRateLimitErr m then
        retryLoop api text cacheKey remaining
          { st1 with backoffs := st1.backoffs + 1 }
      else if isSafetyErr m then .ok (text, st1)
      else
        retryLoop api text cacheKey remaining
          { st1 with backoffs := st1.backoffs + 1 }

/-- Model of `_translate_with_retry(self, text, max_retries=3)`
(src/backend/translator.py, lines 195-276): cache lookup first, then
the retry loop. -/
def translate_with_retry (api : Nat → ApiOutcome) (cfg : TransCfg)
    (text : String) (max_retries : Nat) (st : TransState) :
    Except String (String × TransState) :=
  match st.cache.lookup (get_cache_key cfg text) with
  | some v => .ok (v, st)
  | none => retryLoop api text (get_cache_key cfg text) max_retries st

/-- An attempt outcome whose try-block fails with an error the loop
retries (rate-limit, or anything that is not classified as a safety
block). -/
def failsNonSafety (o : ApiOutcome) : Prop :=
  ∃ e, attemptResult o = .error e ∧
    (isRateLimitErr (pyLower e) = true ∨ isSafetyErr (pyLower e) = false)

theorem retryLoop_allfail (api : Nat → ApiOutcome) (text cacheKey : String)
    (hfail : ∀ n, failsNonSafety (api n)) :
    ∀ (remaining : Nat) (st : TransState),
      retryLoop api text cacheKey remaining st =
        .ok (text, { st with callIdx := st.callIdx + remaining,
                             backoffs := st.backoffs + remaining }) := by
  intro remaining
  induction remaining with
  | zero => intro st; rfl
  | succ rem ih =>
    intro st
    obtain ⟨e, he, hcls⟩ := hfail st.callIdx
    rw [show retryLoop api text cacheKey (rem + 1) st =
      (match attemptResult (api st.callIdx) with
       | .ok s =>
         .ok (pyStrip s,
           { st with callIdx := st.callIdx + 1,
                     cache := (cacheKey, pyStrip s) :: st.cache })
       | .error e =>
         if isRateLimitErr (pyLower e) then
           retryLoop api text cacheKey rem
             { st with callIdx := st.callIdx + 1, backoffs := st.backoffs + 1 }
         else if isSafetyErr (pyLower e) then
           .ok (text, { st with callIdx := st.callIdx + 1 })
         else
           retryLoop api text cacheKey rem
             { st with callIdx := st.callIdx + 1, backoffs := st.backoffs + 1 })
      from rfl]
    rw [he]
    dsimp only
    have hstep : retryLoop api text cacheKey rem
        { st with callIdx := st.callIdx + 1, backoffs := st.backoffs + 1 } =
      .ok (text, { st with callIdx := st.callIdx + 1 + rem,
                           backoffs := st.backoffs + 1 + rem }) :=
      ih { st with callIdx := st.callIdx + 1, backoffs := st.backoffs + 1 }
    have harith1 : st.callIdx + 1 + rem = st.callIdx + (rem + 1) := by omega
    have harith2 : st.backoffs + 1 + rem = st.backoffs + (rem + 1) := by omega
    rw [harith1, harith2] at hstep
    rcases hcls with hrl | hns
    · rw [if_pos hrl]
      exact hstep
    · by_cases hrl : isRateLimitErr (pyLower e) = true
      · rw [if_pos hrl]
        exact hstep
      · rw [if_neg hrl, if_neg (by rw [hns]; exact Bool.false_ne_true)]
        exact hstep


/-- One-step unfolding of the retry loop. -/
theorem retryLoop_succ (api : Nat → ApiOutcome) (text key : String)
    (rem : Nat) (st : TransState) :
    retryLoop api text key (rem + 1) st =
      (match attemptResult (api st.callIdx) with
       | .ok s =>
         .ok (pyStrip s,
           { st with callIdx := st.callIdx + 1,
                     cache := (key, pyStrip s) :: st.cache })
       | .error e =>
         if isRateLimitErr (pyLower e) then
           retryLoop api text key rem
             { st with callIdx := st.callIdx + 1, backoffs := st.backoffs + 1 }
         else if isSafetyErr (pyLower e) then
           .ok (text, { st with callIdx := st.callIdx + 1 })
         else
           retryLoop api text key rem
             { st with callIdx := st.callIdx + 1, backoffs := st.backoffs + 1 }) :=
  rfl

/-- **C2 counterexample.** With every attempt failing with an error that
is neither a rate-limit nor a safety error, `_translate_with_retry`
does not surface any exception: it returns normally (`Except.ok`, the
model of a Python `return`) with the original input text, after 3 calls
and 3 backoff sleeps.  (The code's own docstring, lines 206-207, claims
"Raises: Exception: If all retry attempts are exhausted", but line 276
deliberately returns the input text instead.) -/
theorem retry_surfaces_error_counterexample :
    translate_with_retry (fun _ => ApiOutcome.exn "connection reset by peer")
      ⟨some "Dutch", some "nl", "gemini-1.5-flash"⟩ "hello" 3 ⟨[], 0, 0⟩ =
      Except.ok ("hello", ⟨[], 3, 3⟩) := rfl

/-- **C2 (amended).** For every remote translation call that fails on
all attempts with an error that is neither a rate-limit/quota error nor
a content-safety-block error, after `max_retries` attempts the retry
layer returns the original input text normally to its caller (a
degraded result; the last exception is only logged, never raised), with
one backoff sleep per failed attempt and the cache unchanged. -/
theorem retry_exhaustion_returns_original (api : Nat → ApiOutcome)
    (cfg : TransCfg) (text : String) (max_retries : Nat) (st : TransState)
    (hmiss : st.cache.lookup (get_cache_key cfg text) = none)
    (hfail : ∀ n, ∃ e, attemptResult (api n) = .error e ∧
      isRateLimitErr (pyLower e) = false ∧ isSafetyErr (pyLower e) = false) :
    translate_with_retry api cfg text max_retries st =
      .ok (text, { st with callIdx := st.callIdx + max_retries,
                           backoffs := st.backoffs + max_retries }) := by
  unfold translate_with_retry
  rw [hmiss]
  exact retryLoop_allfail api text _
    (fun n => by
      obtain ⟨e, he, _, h2⟩ := hfail n
      exact ⟨e, he, Or.inr h2⟩)
    max_retries st

/-- Witness for the amended C2. -/
theorem retry_exhaustion_returns_original_witness :
    (([] : List (String × String)).lookup
      (get_cache_key ⟨some "Dutch", some "nl", "gemini-1.5-flash"⟩ "hello") =
        none) ∧
    translate_with_retry (fun _ => ApiOutcome.exn "timeout while reading")
      ⟨some "Dutch", some "nl", "gemini-1.5-flash"⟩ "hello" 3 ⟨[], 0, 0⟩ =
      Except.ok ("hello", ⟨[], 3, 3⟩) :=
  ⟨rfl,
    retry_exhaustion_returns_original (fun _ => ApiOutcome.exn "timeout while reading")
      ⟨some "Dutch", some "nl", "gemini-1.5-flash"⟩ "hello" 3 ⟨[], 0, 0⟩ rfl
      (fun _ => ⟨"timeout while reading", rfl, by decide, by decide⟩)⟩

theorem retryLoop_safety (api : Nat → ApiOutcome) (text key : String) :
    ∀ (k remaining : Nat) (st : TransState), k < remaining →
      (∀ i, i < k → failsNonSafety (api (st.callIdx + i))) →
      (∃ e, attemptResult (api (st.callIdx + k)) = .error e ∧
        isRateLimitErr (pyLower e) = false ∧ isSafetyErr (pyLower e) = true) →
      retryLoop api text key remaining st =
        .ok (text, { st with callIdx := st.callIdx + k + 1,
                             backoffs := st.backoffs + k }) := by
  intro k
  induction k with
  | zero =>
    intro remaining st hk hearl hsf
    obtain ⟨rem, rfl⟩ : ∃ r, remaining = r + 1 := ⟨remaining - 1, by omega⟩
    obtain ⟨e, he, hrl, hsfe⟩ := hsf
    rw [Nat.add_zero] at he
    rw [retryLoop_succ, he]
    dsimp only
    rw [if_neg (by rw [hrl]; exact Bool.false_ne_true), if_pos hsfe]
    rfl
  | succ k ih =>
    intro remaining st hk hearl hsf
    obtain ⟨rem, rfl⟩ : ∃ r, remaining = r + 1 := ⟨remaining - 1, by omega⟩
    obtain ⟨e0, he0, hcls0⟩ := hearl 0 (by omega)
    rw [Nat.add_zero] at he0
    rw [retryLoop_succ, he0]
    dsimp only
    have hstep : retryLoop api text key rem
        { st with callIdx := st.callIdx + 1, backoffs := st.backoffs + 1 } =
      .ok (text, { st with callIdx := st.callIdx + 1 + k + 1,
                           backoffs := st.backoffs + 1 + k }) := by
      apply ih rem { st with callIdx := st.callIdx + 1, backoffs := st.backoffs + 1 }
        (by omega)
      · intro i hi
        have := hearl (i + 1) (by omega)
        rw [show st.callIdx + (i + 1) = st.callIdx + 1 + i from by omega] at this
        exact this
      · obtain ⟨e, he, h1, h2⟩ := hsf
        rw [show st.callIdx + (k + 1) = st.callIdx + 1 + k from by omega] at he
        exact ⟨e, he, h1, h2⟩
    have harith1 : st.callIdx + 1 + k + 1 = st.callIdx + (k + 1) + 1 := by omega
    have harith2 : st.backoffs + 1 + k = st.backoffs + (k + 1) := by omega
    rw [harith1, harith2] at hstep
    rcases hcls0 with hrl0 | hns0
    · rw [if_pos hrl0]
      exact hstep
    · by_cases hrl : isRateLimitErr (pyLower e0) = true
      · rw [if_pos hrl]
        exact hstep
      · rw [if_neg hrl, if_neg (by rw [hns0]; exact Bool.false_ne_true)]
        exact hstep

/-- **C3.** A content-safety-block error on attempt `k + 1` of
`max_retries` (the first `k` attempts failing with retried errors)
makes `_translate_with_retry` return the original untranslated text
immediately: exactly `k + 1` remote calls are made (none of the
remaining attempts run) and exactly `k` backoff sleeps are executed
(none for the safety attempt or after it); the cache is unchanged. -/
theorem safety_block_short_circuit (api : Nat → ApiOutcome) (cfg : TransCfg)
    (text : String) (max_retries k : Nat) (st : TransState)
    (hmiss : st.cache.lookup (get_cache_key cfg text) = none)
    (hk : k < max_retries)
    (hearl : ∀ i, i < k → failsNonSafety (api (st.callIdx + i)))
    (hsf : ∃ e, attemptResult (api (st.callIdx + k)) = .error e ∧
      isRateLimitErr (pyLower e) = false ∧ isSafetyErr (pyLower e) = true) :
    translate_with_retry api cfg text max_retries st =
      .ok (text, { st with callIdx := st.callIdx + k + 1,
                           backoffs := st.backoffs + k }) := by
  unfold translate_with_retry
  rw [hmiss]
  exact retryLoop_safety api text _ k max_retries st hk hearl hsf

/-- Witness for C3: a rate-limited first attempt followed by a safety
block on the second attempt of 3; the call returns the original text
after 2 remote calls and a single backoff sleep. -/
theorem safety_block_short_circuit_witness :
    (([] : List (String × String)).lookup
      (get_cache_key ⟨some "Dutch", some "nl", "gemini-1.5-flash"⟩ "hi") =
        none) ∧
    (1 < 3) ∧
    translate_with_retry
      (fun n => if n = 0 then ApiOutcome.exn "429 rate limit exceeded"
        else ApiOutcome.exn "response blocked by safety filters")
      ⟨some "Dutch", some "nl", "gemini-1.5-flash"⟩ "hi" 3 ⟨[], 0, 0⟩ =
      Except.ok ("hi", ⟨[], 2, 1⟩) :=
  ⟨rfl, by omega,
    safety_block_short_circuit
      (fun n => if n = 0 then ApiOutcome.exn "429 rate limit exceeded"
        else ApiOutcome.exn "response blocked by safety filters")
      ⟨some "Dutch", some "nl", "gemini-1.5-flash"⟩ "hi" 3 1 ⟨[], 0, 0⟩ rfl
      (by omega)
      (fun i hi => by
        interval_cases i
        exact ⟨"429 rate limit exceeded", rfl, Or.inl (by decide)⟩)
      ⟨"response blocked by safety filters", rfl, by decide, by decide⟩⟩

/-- **C5.** Translating the same text twice in sequence with the same
model and target language issues exactly one remote call: the first
call (whose first attempt succeeds) stores the stripped result in the
cache in the state it returns, with its call counter advanced by
exactly one; the second call — with any oracle at all — returns the
cached value and leaves the state untouched (no remote call is made:
the call counter does not move). -/
theorem cache_idempotence (api api2 : Nat → ApiOutcome) (cfg : TransCfg)
    (text s : String) (max_retries : Nat) (st : TransState)
    (hmiss : st.cache.lookup (get_cache_key cfg text) = none)
    (hpos : 0 < max_retries)
    (hfirst : attemptResult (api st.callIdx) = .ok s) :
    translate_with_retry api cfg text max_retries st =
      .ok (pyStrip s,
        { st with callIdx := st.callIdx + 1,
                  cache := (get_cache_key cfg text, pyStrip s) :: st.cache }) ∧
    translate_with_retry api2 cfg text max_retries
        { st with callIdx := st.callIdx + 1,
                  cache := (get_cache_key cfg text, pyStrip s) :: st.cache } =
      .ok (pyStrip s,
        { st with callIdx := st.callIdx + 1,
                  cache := (get_cache_key cfg text, pyStrip s) :: st.cache }) := by
  constructor
  · unfold translate_with_retry
    rw [hmiss]
    obtain ⟨rem, rfl⟩ : ∃ r, max_retries = r + 1 := ⟨max_retries - 1, by omega⟩
    rw [retryLoop_succ, hfirst]
  · unfold translate_with_retry
    dsimp only
    simp only [List.lookup, beq_self_eq_true]

/-- Witness for C5 at a concrete input. -/
theorem cache_idempotence_witness :
    (([] : List (String × String)).lookup
      (get_cache_key ⟨some "Dutch", some "nl", "gemini-1.5-flash"⟩ "good morning") =
        none) ∧
    (0 < 3) ∧
    attemptResult (ApiOutcome.text " goedemorgen ") = Except.ok " goedemorgen " ∧
    translate_with_retry (fun _ => ApiOutcome.text " goedemorgen ")
      ⟨some "Dutch", some "nl", "gemini-1.5-flash"⟩ "good morning" 3 ⟨[], 0, 0⟩ =
      Except.ok ("goedemorgen",
        ⟨[(get_cache_key ⟨some "Dutch", some "nl", "gemini-1.5-flash"⟩
            "good morning", "goedemorgen")], 1, 0⟩) ∧
    translate_with_retry (fun _ => ApiOutcome.exn "network unreachable")
      ⟨some "Dutch", some "nl", "gemini-1.5-flash"⟩ "good morning" 3
      ⟨[(get_cache_key ⟨some "Dutch", some "nl", "gemini-1.5-flash"⟩
          "good morning", "goedemorgen")], 1, 0⟩ =
      Except.ok ("goedemorgen",
        ⟨[(get_cache_key ⟨some "Dutch", some "nl", "gemini-1.5-flash"⟩
            "good morning", "goedemorgen")], 1, 0⟩) := by
  refine ⟨rfl, by omega, rfl, ?_, ?_⟩
  · exact (cache_idempotence (fun _ => ApiOutcome.text " goedemorgen ")
      (fun _ => ApiOutcome.exn "network unreachable")
      ⟨some "Dutch", some "nl", "gemini-1.5-flash"⟩ "good morning"
      " goedemorgen " 3 ⟨[], 0, 0⟩ rfl (by omega) rfl).1
  · exact (cache_idempotence (fun _ => ApiOutcome.text " goedemorgen ")
      (fun _ => ApiOutcome.exn "network unreachable")
      ⟨some "Dutch", some "nl", "gemini-1.5-flash"⟩ "good morning"
      " goedemorgen " 3 ⟨[], 0, 0⟩ rfl (by omega) rfl).2


/-! ### Subtitle file translation (src/backend/translator.py,
`translate_subtitle`, lines 298-370)

The file content is passed as a string (the `open(...).read()` is
abstracted into the argument); the per-block loop threads the shared
translator state.  Each Python `return` is `Except.ok`; the outer
try/except re-raises, but no modelled operation raises, so the function
is total. -/

theorem dropWhile_head_false (p : Char → Bool) :
    ∀ (l : List Char) (c : Char) (cs : List Char),
      l.dropWhile p = c :: cs → p c = false := by
  intro l
  induction l with
  | nil => intro c cs h; cases h
  | cons a t ih =>
    intro c cs h
    rw [List.dropWhile_cons] at h
    by_cases hp : p a = true
    · rw [if_pos hp] at h
      exact ih c cs h
    · rw [if_neg hp] at h
      cases h
      exact Bool.not_eq_true _ |>.mp hp

theorem dropWhile_dropWhile (p : Char → Bool) (l : List Char) :
    (l.dropWhile p).dropWhile p = l.dropWhile p := by
  cases h : l.dropWhile p with
  | nil => rfl
  | cons c cs =>
    rw [List.dropWhile_cons, if_neg ?_]
    rw [dropWhile_head_false p l c cs h]
    exact Bool.false_ne_true

theorem stripChars_no_leading (l : List Char) :
    (stripChars l).dropWhile wsp = stripChars l := by
  unfold stripChars
  cases hr : ((l.dropWhile wsp).reverse.dropWhile wsp).reverse with
  | nil => rfl
  | cons c cs =>
    rw [List.dropWhile_cons, if_neg ?_]
    have hhd : ((l.dropWhile wsp).reverse.dropWhile wsp).reverse.head? = some c := by
      rw [hr]; rfl
    rw [List.head?_reverse] at hhd
    have hsfx := List.dropWhile_suffix (l := (l.dropWhile wsp).reverse) wsp
    obtain ⟨t, ht⟩ := hsfx
    have hne : (l.dropWhile wsp).reverse.dropWhile wsp ≠ [] := by
      intro habs
      rw [habs] at hhd
      cases hhd
    have hlast : (l.dropWhile wsp).reverse.getLast? = some c := by
      rw [← ht, List.getLast?_append_of_ne_nil t hne]
      exact hhd
    rw [List.getLast?_reverse] at hlast
    obtain ⟨cs2, hcs2⟩ : ∃ cs2, l.dropWhile wsp = c :: cs2 := by
      cases hdw : l.dropWhile wsp with
      | nil => rw [hdw] at hlast; cases hlast
      | cons x xs =>
        rw [hdw] at hlast
        cases hlast
        exact ⟨xs, rfl⟩
    rw [dropWhile_head_false wsp l c cs2 hcs2]
    exact Bool.false_ne_true

theorem stripChars_no_trailing (l : List Char) :
    (stripChars l).reverse.dropWhile wsp = (stripChars l).reverse := by
  unfold stripChars
  rw [List.reverse_reverse]
  exact dropWhile_dropWhile wsp _

theorem stripChars_idem (l : List Char) :
    stripChars (stripChars l) = stripChars l := by
  conv_lhs => rw [show stripChars (stripChars l) =
    (((stripChars l).dropWhile wsp).reverse.dropWhile wsp).reverse from rfl]
  rw [stripChars_no_leading, stripChars_no_trailing, List.reverse_reverse]

theorem pyStrip_idem (s : String) : pyStrip (pyStrip s) = pyStrip s := by
  unfold pyStrip
  rw [show (String.mk (stripChars s.data)).data = stripChars s.data from rfl,
    stripChars_idem]

/-- The non-empty lines of a block:
`[l for l in block.split('\n') if l.strip()]` (line 334). -/
def pyLines (b : String) : List String :=
  (pySplit "\n" b).filter (fun l => pyStrip l ≠ "")

/-- The block list of `translate_subtitle` (line 317):
`[b.strip() for b in content.replace('\r\n', '\n').split('\n\n') if b.strip()]`. -/
def parseBlocks (content : String) : List String :=
  ((pySplit "\n\n" (pyReplace content "\r\n" "\n")).map pyStrip).filter
    (fun b => b ≠ "")

/-- One iteration of the block loop of `translate_subtitle` (lines
322-356): skip empty blocks, pass blocks with fewer than two non-empty
lines through unchanged, otherwise keep the first two non-empty lines
(index + timestamp) as the header and translate the rest; a per-block
exception keeps the original block. -/
def processBlock (api : Nat → ApiOutcome) (cfg : TransCfg) (max_retries : Nat)
    (st : TransState) (block : String) : String × TransState :=
  if pyStrip block = "" then ("", st)
  else
    let lines := pyLines block
    if lines.length < 2 then (block, st)
    else
      let header := pyJoin "\n" (lines.take 2)
      let text := pyJoin "\n" (lines.drop 2)
      match translate_with_retry api cfg text max_retries st with
      | .ok (t, st2) => (header ++ "\n" ++ t, st2)
      | .error _ => (block, st)

/-- Model of `translate_subtitle` (src/backend/translator.py, lines
298-370): split the content into blocks, process each block in order
threading the state, and join the results with blank lines. -/
def translate_subtitle (api : Nat → ApiOutcome) (cfg : TransCfg)
    (max_retries : Nat) (content : String) (st : TransState) :
    Except String (String × TransState) :=
  let blocks := parseBlocks content
  let r := blocks.foldl (fun (acc : List String × TransState) b =>
      let pr := processBlock api cfg max_retries acc.2 b
      (acc.1 ++ [pr.1], pr.2)) ([], st)
  .ok (pyJoin "\n\n" r.1, r.2)

/-- Every block produced by `parseBlocks` is non-empty and already
stripped. -/
theorem mem_parseBlocks (content : String) (b : String)
    (hb : b ∈ parseBlocks content) : pyStrip b = b ∧ b ≠ "" := by
  unfold parseBlocks at hb
  rw [List.mem_filter] at hb
  obtain ⟨hmem, hne⟩ := hb
  rw [List.mem_map] at hmem
  obtain ⟨x, _, hx⟩ := hmem
  refine ⟨?_, by simpa using hne⟩
  rw [← hx]
  exact pyStrip_idem x

/-- The retry layer never raises: every call returns `Except.ok`. -/
theorem translate_with_retry_total (api : Nat → ApiOutcome) (cfg : TransCfg)
    (text : String) (max_retries : Nat) (st : TransState) :
    ∃ r, translate_with_retry api cfg text max_retries st = .ok r := by
  unfold translate_with_retry
  cases hl : st.cache.lookup (get_cache_key cfg text) with
  | some v => exact ⟨(v, st), rfl⟩
  | none =>
    clear hl
    induction max_retries generalizing st with
    | zero => exact ⟨(text, st), rfl⟩
    | succ rem ih =>
      rw [retryLoop_succ]
      cases har : attemptResult (api st.callIdx) with
      | ok s =>
        exact ⟨_, rfl⟩
      | error e =>
        dsimp only
        by_cases hrl : isRateLimitErr (pyLower e) = true
        · rw [if_pos hrl]
          exact ih _
        · rw [if_neg hrl]
          by_cases hsf : isSafetyErr (pyLower e) = true
          · rw [if_pos hsf]
            exact ⟨_, rfl⟩
          · rw [if_neg hsf]
            exact ih _


/-- **C8.** For every input block of `translate_subtitle` (an element of
its parsed block list): if the block has fewer than two non-empty lines
it is emitted exactly as it appeared; otherwise the emitted block is the
block's first two non-empty lines (index and timestamp), unchanged,
followed by some replacement of the text lines — whatever the state of
the cache or the behavior of the remote API. -/
theorem block_header_preserved (api : Nat → ApiOutcome) (cfg : TransCfg)
    (max_retries : Nat) (st : TransState) (content b : String)
    (hb : b ∈ parseBlocks content) :
    ((pyLines b).length < 2 → (processBlock api cfg max_retries st b).1 = b) ∧
    (∀ l0 l1 rest2, pyLines b = l0 :: l1 :: rest2 →
      ∃ t, (processBlock api cfg max_retries st b).1 =
        l0 ++ "\n" ++ l1 ++ "\n" ++ t) := by
  obtain ⟨hstrip, hne⟩ := mem_parseBlocks content b hb
  have hnotempty : ¬ pyStrip b = "" := by rw [hstrip]; exact hne
  constructor
  · intro hlt
    unfold processBlock
    rw [if_neg hnotempty, if_pos hlt]
  · intro l0 l1 rest2 hl
    unfold processBlock
    rw [if_neg hnotempty]
    rw [if_neg (by rw [hl]; simp)]
    dsimp only
    obtain ⟨⟨t, st2⟩, hok⟩ :=
      translate_with_retry_total api cfg
        (pyJoin "\n" ((pyLines b).drop 2)) max_retries st
    rw [hok]
    refine ⟨t, ?_⟩
    rw [hl]
    rfl

/-- Witness for C8: a well-formed block keeps its index and timestamp
lines; a one-line block is passed through verbatim. -/
theorem block_header_preserved_witness :
    ("garbage" ∈ parseBlocks "garbage\n\n1\n00:00:01,000 --> 00:00:02,000\nhello") ∧
    ((pyLines "garbage").length < 2) ∧
    (processBlock (fun _ => ApiOutcome.text " hallo ")
      ⟨some "Dutch", some "nl", "gemini-1.5-flash"⟩ 3 ⟨[], 0, 0⟩ "garbage").1 =
      "garbage" ∧
    ("1\n00:00:01,000 --> 00:00:02,000\nhello" ∈
      parseBlocks "garbage\n\n1\n00:00:01,000 --> 00:00:02,000\nhello") ∧
    pyLines "1\n00:00:01,000 --> 00:00:02,000\nhello" =
      ["1", "00:00:01,000 --> 00:00:02,000", "hello"] ∧
    ∃ t, (processBlock (fun _ => ApiOutcome.text " hallo ")
      ⟨some "Dutch", some "nl", "gemini-1.5-flash"⟩ 3 ⟨[], 0, 0⟩
      "1\n00:00:01,000 --> 00:00:02,000\nhello").1 =
      "1" ++ "\n" ++ "00:00:01,000 --> 00:00:02,000" ++ "\n" ++ t := by
  refine ⟨by decide, by decide, ?_, by decide, by decide, ?_⟩
  · exact (block_header_preserved (fun _ => ApiOutcome.text " hallo ")
      ⟨some "Dutch", some "nl", "gemini-1.5-flash"⟩ 3 ⟨[], 0, 0⟩
      "garbage\n\n1\n00:00:01,000 --> 00:00:02,000\nhello" "garbage"
      (by decide)).1 (by decide)
  · exact (block_header_preserved (fun _ => ApiOutcome.text " hallo ")
      ⟨some "Dutch", some "nl", "gemini-1.5-flash"⟩ 3 ⟨[], 0, 0⟩
      "garbage\n\n1\n00:00:01,000 --> 00:00:02,000\nhello"
      "1\n00:00:01,000 --> 00:00:02,000\nhello" (by decide)).2
      "1" "00:00:01,000 --> 00:00:02,000" ["hello"] (by decide)

/-- The shape of a degraded block: empty blocks become empty output,
blocks with fewer than two non-empty lines pass through, and all other
blocks are rebuilt from their own header and their own (untranslated)
text. -/
def degradeBlock (b : String) : String :=
  if pyStrip b = "" then ""
  else if (pyLines b).length < 2 then b
  else pyJoin "\n" ((pyLines b).take 2) ++ "\n" ++ pyJoin "\n" ((pyLines b).drop 2)

theorem retry_empty_cache_degrades (api : Nat → ApiOutcome) (cfg : TransCfg)
    (max_retries : Nat) (hfail : ∀ n, failsNonSafety (api n))
    (text : String) (st : TransState) (hc : st.cache = []) :
    translate_with_retry api cfg text max_retries st =
      .ok (text, { st with callIdx := st.callIdx + max_retries,
                           backoffs := st.backoffs + max_retries }) := by
  unfold translate_with_retry
  rw [hc]
  rw [show ([] : List (String × String)).lookup (get_cache_key cfg text) =
    none from rfl]
  have := retryLoop_allfail api text (get_cache_key cfg text) hfail max_retries st
  rw [hc] at this
  exact this

theorem foldl_degrade (api : Nat → ApiOutcome) (cfg : TransCfg)
    (max_retries : Nat) (hfail : ∀ n, failsNonSafety (api n)) :
    ∀ (bs : List String) (acc : List String × TransState), acc.2.cache = [] →
      (bs.foldl (fun (acc : List String × TransState) b =>
          let pr := processBlock api cfg max_retries acc.2 b
          (acc.1 ++ [pr.1], pr.2)) acc).1 = acc.1 ++ bs.map degradeBlock ∧
      (bs.foldl (fun (acc : List String × TransState) b =>
          let pr := processBlock api cfg max_retries acc.2 b
          (acc.1 ++ [pr.1], pr.2)) acc).2.cache = [] := by
  intro bs
  induction bs with
  | nil =>
    intro acc hc
    exact ⟨(List.append_nil acc.1).symm, hc⟩
  | cons b t ih =>
    intro acc hc
    rw [List.foldl_cons]
    have hfinish : ∀ st2 : TransState, st2.cache = [] →
        processBlock api cfg max_retries acc.2 b = (degradeBlock b, st2) →
        ((t.foldl (fun (acc : List String × TransState) b =>
            let pr := processBlock api cfg max_retries acc.2 b
            (acc.1 ++ [pr.1], pr.2))
          ((fun (acc : List String × TransState) b =>
            let pr := processBlock api cfg max_retries acc.2 b
            (acc.1 ++ [pr.1], pr.2)) acc b)).1 =
            acc.1 ++ (b :: t).map degradeBlock ∧
         (t.foldl (fun (acc : List String × TransState) b =>
            let pr := processBlock api cfg max_retries acc.2 b
            (acc.1 ++ [pr.1], pr.2))
          ((fun (acc : List String × TransState) b =>
            let pr := processBlock api cfg max_retries acc.2 b
            (acc.1 ++ [pr.1], pr.2)) acc b)).2.cache = []) := by
      intro st2 hc2 hpb
      have hstep : ((fun (acc : List String × TransState) b =>
          let pr := processBlock api cfg max_retries acc.2 b
          (acc.1 ++ [pr.1], pr.2)) acc b) = (acc.1 ++ [degradeBlock b], st2) := by
        dsimp only
        rw [hpb]
      rw [hstep]
      obtain ⟨h1, h2⟩ := ih (acc.1 ++ [degradeBlock b], st2) hc2
      refine ⟨?_, h2⟩
      rw [h1, List.append_assoc]
      rfl
    by_cases h0 : pyStrip b = ""
    · refine hfinish acc.2 hc ?_
      unfold processBlock degradeBlock
      rw [if_pos h0, if_pos h0]
    · by_cases h2l : (pyLines b).length < 2
      · refine hfinish acc.2 hc ?_
        unfold processBlock degradeBlock
        rw [if_neg h0, if_neg h0, if_pos h2l, if_pos h2l]
      · refine hfinish
          ⟨acc.2.cache, acc.2.callIdx + max_retries, acc.2.backoffs + max_retries⟩
          hc ?_
        unfold processBlock degradeBlock
        rw [if_neg h0, if_neg h0, if_neg h2l, if_neg h2l]
        dsimp only
        rw [retry_empty_cache_degrades api cfg max_retries hfail
          (pyJoin "\n" ((pyLines b).drop 2)) acc.2 hc]
/-- **C1.** When every remote attempt fails with a non-safety error
(rate-limit or otherwise), starting from an empty cache:
`_translate_with_retry` returns each block's input text unchanged (a
normal return, `Except.ok`), and `translate_subtitle` completes the
whole job without raising, emitting every block rebuilt from its own
original text (and caching nothing). -/
theorem job_degrades_without_raising (api : Nat → ApiOutcome) (cfg : TransCfg)
    (max_retries : Nat) (content : String)
    (hfail : ∀ n, failsNonSafety (api n)) :
    (∀ text st, st.cache = [] →
      translate_with_retry api cfg text max_retries st =
        .ok (text, { st with callIdx := st.callIdx + max_retries,
                             backoffs := st.backoffs + max_retries })) ∧
    ∃ stf : TransState,
      translate_subtitle api cfg max_retries content ⟨[], 0, 0⟩ =
        .ok (pyJoin "\n\n" ((parseBlocks content).map degradeBlock), stf) ∧
      stf.cache = [] := by
  constructor
  · intro text st hc
    exact retry_empty_cache_degrades api cfg max_retries hfail text st hc
  · obtain ⟨h1, h2⟩ := foldl_degrade api cfg max_retries hfail
      (parseBlocks content) ([], ⟨[], 0, 0⟩) rfl
    refine ⟨_, ?_, h2⟩
    unfold translate_subtitle
    dsimp only
    rw [h1]
    rfl

/-- Witness for C1: two blocks, every attempt failing with a plain
server error; the output is the input blocks rebuilt unchanged and the
job returns normally. -/
theorem job_degrades_without_raising_witness :
    (∀ n : Nat, failsNonSafety
      ((fun _ : Nat => ApiOutcome.exn "internal server error 500") n)) ∧
    ∃ stf : TransState,
      translate_subtitle (fun _ : Nat => ApiOutcome.exn "internal server error 500")
        ⟨some "Dutch", some "nl", "gemini-1.5-flash"⟩ 3
        "1\n00:00:01,000 --> 00:00:02,000\nhello\n\n2\n00:00:03,000 --> 00:00:04,000\nworld"
        ⟨[], 0, 0⟩ =
        .ok (pyJoin "\n\n" ((parseBlocks
          "1\n00:00:01,000 --> 00:00:02,000\nhello\n\n2\n00:00:03,000 --> 00:00:04,000\nworld").map
            degradeBlock), stf) ∧
      stf.cache = [] :=
  ⟨fun _ => ⟨"internal server error 500", rfl, Or.inr (by decide)⟩,
    (job_degrades_without_raising (fun _ : Nat => ApiOutcome.exn "internal server error 500")
      ⟨some "Dutch", some "nl", "gemini-1.5-flash"⟩ 3
      "1\n00:00:01,000 --> 00:00:02,000\nhello\n\n2\n00:00:03,000 --> 00:00:04,000\nworld"
      (fun _ => ⟨"internal server error 500", rfl, Or.inr (by decide)⟩)).2⟩


/-! ### Log broadcaster (src/main.py, `LogBroadcaster`, lines 37-65)

`add_log` runs under the broadcaster's lock; the model is the resulting
sequential state transformation.  `asyncio.Queue.put_nowait` raises
`QueueFull` on a full bounded queue; `add_log` catches it and moves on
(`except asyncio.QueueFull: pass`), which `tryPut` models.  `add_log`
itself is a total function — the model of "publish does not throw" —
and performs no waiting operation — the model of "does not block". -/

/-- A subscriber queue: `asyncio.Queue(maxsize=...)`; `maxsize = 0`
means unbounded. -/
structure AQueue where
  maxsize : Nat
  items : List String
deriving Repr, DecidableEq

/-- `asyncio.Queue.full()`: true iff the queue is bounded and holds at
least `maxsize` items. -/
def queueFull (q : AQueue) : Bool := 0 < q.maxsize && q.maxsize ≤ q.items.length

/-- `q.put_nowait(e)`: raises `QueueFull` (modelled as `.error`) on a
full queue, otherwise appends. -/
def put_nowait (q : AQueue) (e : String) : Except Unit AQueue :=
  if queueFull q then .error () else .ok { q with items := q.items ++ [e] }

/-- The `try: q.put_nowait(...) except asyncio.QueueFull: pass` of
`add_log`: a full queue drops the entry and stays unchanged. -/
def tryPut (q : AQueue) (e : String) : AQueue :=
  match put_nowait q e with
  | .ok q2 => q2
  | .error _ => q

/-- `collections.deque(maxlen=n).append(e)`: append, evicting from the
left when over capacity. -/
def appendBounded (maxlen : Nat) (l : List String) (e : String) : List String :=
  let l2 := l ++ [e]
  if maxlen < l2.length then l2.drop (l2.length - maxlen) else l2

/-- The broadcaster state: bounded history (maxlen 100) and the list of
subscriber queues. -/
structure LogBroadcaster where
  history : List String
  clients : List AQueue
deriving Repr, DecidableEq

/-- Model of `LogBroadcaster.add_log` (src/main.py, lines 43-50). -/
def add_log (b : LogBroadcaster) (e : String) : LogBroadcaster :=
  { history := appendBounded 100 b.history e,
    clients := b.clients.map (fun q => tryPut q e) }

/-- **C9.** Publishing a log entry is best-effort per subscriber: the
subscriber list keeps its length (no subscriber is removed and the
publisher, a total function, neither throws nor blocks), a full
subscriber queue is left exactly as it was (the entry is dropped for
that subscriber only), and every subscriber whose queue has capacity
receives the entry appended — independently of the state of the other
queues. -/
theorem broadcaster_best_effort (b : LogBroadcaster) (e : String) (i : Nat)
    (q : AQueue) (hq : b.clients[i]? = some q) :
    ((add_log b e).clients.length = b.clients.length) ∧
    (queueFull q = true → (add_log b e).clients[i]? = some q) ∧
    (queueFull q = false →
      (add_log b e).clients[i]? = some { q with items := q.items ++ [e] }) := by
  refine ⟨List.length_map _ _, ?_, ?_⟩
  · intro hfull
    show (b.clients.map (fun q => tryPut q e))[i]? = some q
    rw [List.getElem?_map, hq]
    show some (tryPut q e) = some q
    unfold tryPut put_nowait
    rw [if_pos hfull]
  · intro hfree
    show (b.clients.map (fun q => tryPut q e))[i]? =
      some { q with items := q.items ++ [e] }
    rw [List.getElem?_map, hq]
    show some (tryPut q e) = some { q with items := q.items ++ [e] }
    unfold tryPut put_nowait
    rw [if_neg (by rw [hfree]; exact Bool.false_ne_true)]

/-- Witness for C9: two subscribers, the first full, the second with
capacity; the entry is dropped for the first only and delivered to the
second. -/
theorem broadcaster_best_effort_witness :
    ((⟨[], [⟨1, ["x"]⟩, ⟨2, []⟩]⟩ : LogBroadcaster).clients[0]? =
      some ⟨1, ["x"]⟩) ∧
    queueFull ⟨1, ["x"]⟩ = true ∧
    (add_log ⟨[], [⟨1, ["x"]⟩, ⟨2, []⟩]⟩ "log").clients[0]? = some ⟨1, ["x"]⟩ ∧
    ((⟨[], [⟨1, ["x"]⟩, ⟨2, []⟩]⟩ : LogBroadcaster).clients[1]? =
      some ⟨2, []⟩) ∧
    queueFull ⟨2, []⟩ = false ∧
    (add_log ⟨[], [⟨1, ["x"]⟩, ⟨2, []⟩]⟩ "log").clients[1]? =
      some ⟨2, [] ++ ["log"]⟩ := by
  refine ⟨by decide, by decide, ?_, by decide, by decide, ?_⟩
  · exact (broadcaster_best_effort ⟨[], [⟨1, ["x"]⟩, ⟨2, []⟩]⟩ "log" 0
      ⟨1, ["x"]⟩ (by decide)).2.1 (by decide)
  · exact (broadcaster_best_effort ⟨[], [⟨1, ["x"]⟩, ⟨2, []⟩]⟩ "log" 1
      ⟨2, []⟩ (by decide)).2.2 (by decide)

/-! ### Translator singleton (src/backend/translator.py, lines 11-143,
and src/main.py, lines 154-199)

`Translator.__new__` keeps a class-level `_instance`; `_initialize`
starts with `if self._initialized: return`.  The external effects of
the initialization body (`genai.configure`, `genai.list_models`, the
test `generate_content` call, the cache file load) are supplied by an
environment record.  Mutations of `self` are modelled by threading the
object state; a raised exception is the `Option String` component of
the result (the raised message), with the mutated state kept alongside
because the singleton instance stays registered even when its
initialization fails. -/

/-- The generation parameters set by `_initialize` (lines 33-38). -/
structure GenConfig where
  temperature : ℚ
  top_p : ℚ
  top_k : Nat
  max_output_tokens : Nat
deriving Repr, DecidableEq

/-- `\x7b"temperature": 0.2, "top_p": 0.8, "top_k": 40,
"max_output_tokens": 4000\x7d`. -/
def defaultGenConfig : GenConfig := ⟨2 / 10, 8 / 10, 40, 4000⟩

/-- The translator instance state the claims depend on: the stored
config, the generation parameters, the model name, and the
`_initialized` flag. -/
structure TranslatorObj where
  config : List (String × String)
  generation_config : GenConfig
  model_name : String
  initialized : Bool
deriving Repr, DecidableEq

/-- The external world of `_initialize`: the `GEMINI_API_KEY`
environment variable, the result of `genai.list_models` (`none` when it
raises), and the result of the `generate_content("Test connection")`
probe per model name (`.error` when it raises, carrying `str(e)`). -/
structure Env where
  gemini_api_key_env : Option String
  available_models : Option (List String)
  model_test : String → Except String String

/-- Python `a or b` on optional strings (`None` and `""` are falsy). -/
def pyOrStr : Option String → Option String → Option String
  | some s, o => if s = "" then o else some s
  | none, o => o

/-- Truthiness of an optional string. -/
def truthyStr : Option String → Bool
  | some s => !(s == "")
  | none => false

/-- Order-preserving de-duplication (lines 87-88:
`[m for m in models_to_try if not (m in seen or seen.add(m))]`). -/
def dedupKeepFirst (l : List String) : List String :=
  l.foldl (fun acc m => if acc.contains m then acc else acc ++ [m]) []

/-- Result of the model-candidate loop (lines 95-129): a model passed
the probe (`break` at line 111), a quota error aborted the scan
(`break` at line 118 — note the for-else is then skipped and control
still reaches `self._initialized = True`), or every candidate failed
(the for-else `raise` at line 129). -/
inductive InitLoopResult where
  | success (m : String)
  | quotaBreak
  | exhausted

/-- The candidate loop: probe each model name in order; an empty probe
response is the `ValueError("Empty response from model")` of line 107,
whose message carries no "quota", so the loop continues; a raised
message containing "quota" breaks the scan; every other failure
continues. -/
def initLoop (test : String → Except String String) : List String → InitLoopResult
  | [] => .exhausted
  | m :: rest =>
    match test m with
    | .ok s => if s = "" then initLoop test rest else .success m
    | .error msg =>
      if containsStr "quota" (pyLower msg) then .quotaBreak
      else initLoop test rest

/-- The body of `_initialize` past the `_initialized` guard (lines
29-143), returning the mutated instance state together with the raised
message, if any (the outer except re-raises as
`RuntimeError` wrapping). -/
def initBody (env : Env) (config : List (String × String))
    (self : TranslatorObj) : TranslatorObj × Option String :=
  let self1 : TranslatorObj :=
    { self with config := config, generation_config := defaultGenConfig }
  let api_key := pyOrStr env.gemini_api_key_env
    (pyOrStr (config.lookup "api_key") (config.lookup "gemini_api_key"))
  if truthyStr api_key = false then
    (self1, some "No API key found. Please set GEMINI_API_KEY environment variable or provide in config.json")
  else
    let available := env.available_models.getD []
    let model_name0 := (config.lookup "model").getD "gemini-1.5-flash"
    let self2 : TranslatorObj := { self1 with model_name := model_name0 }
    let models0 := [model_name0, "models/" ++ model_name0,
      "gemini-1.5-flash", "models/gemini-1.5-flash",
      "gemini-1.5-pro", "models/gemini-1.5-pro"]
    let models1 := if available.isEmpty then models0
      else models0.filter (fun m =>
        available.contains m || available.contains (pyReplace m "models/" ""))
    let models_to_try := dedupKeepFirst models1
    if models_to_try.isEmpty then
      (self2, some "Failed to initialize translator: No valid models available to initialize")
    else
      match initLoop env.model_test models_to_try with
      | .success m =>
        ({ self2 with model_name := m, initialized := true }, none)
      | .quotaBreak => ({ self2 with initialized := true }, none)
      | .exhausted =>
        (self2, some "Failed to initialize translator: No available models could be initialized.")

/-- Model of `Translator._initialize(self, config)` (lines 25-143): the
`if self._initialized: return` guard, then the body. -/
def initializeTranslator (env : Env) (self : TranslatorObj)
    (config : List (String × String)) : TranslatorObj × Option String :=
  if self.initialized then (self, none)
  else initBody env config self

/-- Model of `Translator.__new__` (lines 19-23) acting on the class
state `cls._instance`: an existing instance is returned as-is without
consulting the new config; otherwise a fresh instance is created,
registered, and initialized. -/
def translatorNew (env : Env) (inst : Option TranslatorObj)
    (config : List (String × String)) :
    Option TranslatorObj × Except String TranslatorObj :=
  match inst with
  | some t => (some t, .ok t)
  | none =>
    let fresh : TranslatorObj :=
      { config := [], generation_config := defaultGenConfig,
        model_name := "", initialized := false }
    match initializeTranslator env fresh config with
    | (t, none) => (some t, .ok t)
    | (t, some e) => (some t, .error e)

/-- **C10.** Once the singleton Translator exists and has completed a
successful initialization, every later `Translator(config)`
construction returns the very same instance (the supplied config is
never read), and every later `_initialize(new_config)` call — under any
environment and any new config — returns immediately leaving the whole
instance state (stored config, model name, generation parameters,
initialized flag) unchanged. -/
theorem singleton_ignores_later_configs (env env2 : Env) (t : TranslatorObj)
    (cfg cfg2 : List (String × String)) (hinit : t.initialized = true) :
    translatorNew env (some t) cfg = (some t, .ok t) ∧
    initializeTranslator env2 t cfg2 = (t, none) := by
  refine ⟨rfl, ?_⟩
  unfold initializeTranslator
  rw [if_pos hinit]

/-- Witness for C10 at a concrete instance and two different configs. -/
theorem singleton_ignores_later_configs_witness :
    (⟨[("model", "gemini-2.5-flash")], defaultGenConfig,
        "gemini-2.5-flash", true⟩ : TranslatorObj).initialized = true ∧
    translatorNew ⟨some "key", some [], fun _ => Except.error "unreachable"⟩
      (some ⟨[("model", "gemini-2.5-flash")], defaultGenConfig,
        "gemini-2.5-flash", true⟩)
      [("model", "gemini-1.5-pro"), ("temperature", "0.9")] =
      (some ⟨[("model", "gemini-2.5-flash")], defaultGenConfig,
        "gemini-2.5-flash", true⟩,
       .ok ⟨[("model", "gemini-2.5-flash")], defaultGenConfig,
        "gemini-2.5-flash", true⟩) ∧
    initializeTranslator ⟨none, none, fun _ => Except.error "quota exceeded"⟩
      ⟨[("model", "gemini-2.5-flash")], defaultGenConfig,
        "gemini-2.5-flash", true⟩
      [("model", "gemini-1.5-pro"), ("temperature", "0.9")] =
      (⟨[("model", "gemini-2.5-flash")], defaultGenConfig,
        "gemini-2.5-flash", true⟩, none) := by
  refine ⟨rfl, ?_, ?_⟩
  · exact (singleton_ignores_later_configs
      ⟨some "key", some [], fun _ => Except.error "unreachable"⟩
      ⟨none, none, fun _ => Except.error "quota exceeded"⟩
      ⟨[("model", "gemini-2.5-flash")], defaultGenConfig,
        "gemini-2.5-flash", true⟩
      [("model", "gemini-1.5-pro"), ("temperature", "0.9")]
      [("model", "gemini-1.5-pro"), ("temperature", "0.9")] rfl).1
  · exact (singleton_ignores_later_configs
      ⟨some "key", some [], fun _ => Except.error "unreachable"⟩
      ⟨none, none, fun _ => Except.error "quota exceeded"⟩
      ⟨[("model", "gemini-2.5-flash")], defaultGenConfig,
        "gemini-2.5-flash", true⟩
      [("model", "gemini-1.5-pro"), ("temperature", "0.9")]
      [("model", "gemini-1.5-pro"), ("temperature", "0.9")] rfl).2

/-- The single fold step of `bestFuzzy`. -/
def bfStep (ss : String) (acc : Option String × Nat) (p : String × String) :
    Option String × Nat :=
  let score := prefLen ss.data p.1.data
  if score > acc.2 then (some p.2, score) else acc

theorem bestFuzzy_eq_foldl (ss : String) (pool : List (String × String)) :
    bestFuzzy ss pool = pool.foldl (bfStep ss) (none, 0) := rfl

theorem bfStep_score_mono (ss : String) (acc : Option String × Nat)
    (p : String × String) : acc.2 ≤ (bfStep ss acc p).2 := by
  unfold bfStep
  dsimp only
  split
  · omega
  · exact le_refl _

theorem bf_foldl_mono (ss : String) (pool : List (String × String)) :
    ∀ acc : Option String × Nat, acc.2 ≤ (pool.foldl (bfStep ss) acc).2 := by
  induction pool with
  | nil => intro acc; exact le_refl _
  | cons p rest ih =>
    intro acc
    calc acc.2 ≤ (bfStep ss acc p).2 := bfStep_score_mono ss acc p
    _ ≤ _ := ih (bfStep ss acc p)

theorem bf_foldl_le (ss : String) (pool : List (String × String)) :
    ∀ acc : Option String × Nat, ∀ p ∈ pool,
      prefLen ss.data p.1.data ≤ (pool.foldl (bfStep ss) acc).2 := by
  induction pool with
  | nil => intro acc p hp; cases hp
  | cons q rest ih =>
    intro acc p hp
    rcases List.mem_cons.mp hp with h | h
    · subst h
      calc prefLen ss.data p.1.data ≤ (bfStep ss acc p).2 := by
            unfold bfStep; dsimp only; split <;> omega
      _ ≤ _ := bf_foldl_mono ss rest (bfStep ss acc p)
    · exact ih (bfStep ss acc q) p h

theorem bf_foldl_attained (ss : String) (pool : List (String × String)) :
    ∀ acc : Option String × Nat, ∀ vp : String,
      (pool.foldl (bfStep ss) acc).1 = some vp →
      (∃ p ∈ pool, p.2 = vp ∧
        (pool.foldl (bfStep ss) acc).2 = prefLen ss.data p.1.data) ∨
      (acc.1 = some vp ∧ (pool.foldl (bfStep ss) acc).2 = acc.2) := by
  induction pool with
  | nil => intro acc vp h; exact Or.inr ⟨h, rfl⟩
  | cons q rest ih =>
    intro acc vp h
    rw [List.foldl_cons] at h ⊢
    rcases ih (bfStep ss acc q) vp h with ⟨p, hp, hpv, hsc⟩ | ⟨h1, h2⟩
    · exact Or.inl ⟨p, List.mem_cons_of_mem q hp, hpv, hsc⟩
    · by_cases hgt : prefLen ss.data q.1.data > acc.2
      · refine Or.inl ⟨q, List.mem_cons_self q rest, ?_, ?_⟩
        · have heq : (bfStep ss acc q).1 = some q.2 := by
            unfold bfStep; dsimp only; rw [if_pos hgt]
          rw [heq] at h1; exact Option.some_inj.mp h1
        · have heq : (bfStep ss acc q).2 = prefLen ss.data q.1.data := by
            unfold bfStep; dsimp only; rw [if_pos hgt]
          rw [h2, heq]
      · have hstep : bfStep ss acc q = acc := by
          unfold bfStep; dsimp only; rw [if_neg hgt]
        rw [hstep] at h1 h2
        rw [hstep]
        exact Or.inr ⟨h1, h2⟩

theorem bestFuzzy_le (ss : String) (pool : List (String × String)) :
    ∀ p ∈ pool, prefLen ss.data p.1.data ≤ (bestFuzzy ss pool).2 := by
  rw [bestFuzzy_eq_foldl]; exact bf_foldl_le ss pool (none, 0)

theorem bestFuzzy_attained (ss : String) (pool : List (String × String))
    (vp : String) (h : (bestFuzzy ss pool).1 = some vp) :
    ∃ p ∈ pool, p.2 = vp ∧ (bestFuzzy ss pool).2 = prefLen ss.data p.1.data := by
  rw [bestFuzzy_eq_foldl] at h ⊢
  rcases bf_foldl_attained ss pool (none, 0) vp h with hres | ⟨h1, _⟩
  · exact hres
  · cases h1

/-- **C7.** For a subtitle stem with no exact match in the remaining
video-stem pool, `find_video_matches` (via its per-subtitle step
`matchOne`) selects the remaining video with the longest common prefix,
accepts it as `Matched` iff `10 * common_prefix_length >
7 * len(subtitle_stem)` (the exact-rational form of the source's
`highest_score / len(subtitle_stem) > 0.7` float test), and otherwise
reports the row `(subtitle, None, "No match")`. -/
theorem fuzzy_longest_common_prefix_threshold
    (pool : List (String × String)) (sub : String)
    (hex : pool.lookup (pyLower (stem sub)) = none) :
    (∀ p ∈ pool, prefLen (pyLower (stem sub)).data p.1.data ≤
        (bestFuzzy (pyLower (stem sub)) pool).2) ∧
    (∀ vp, (bestFuzzy (pyLower (stem sub)) pool).1 = some vp →
        ∃ p ∈ pool, p.2 = vp ∧
          (bestFuzzy (pyLower (stem sub)) pool).2 =
            prefLen (pyLower (stem sub)).data p.1.data) ∧
    (∀ vp, (bestFuzzy (pyLower (stem sub)) pool).1 = some vp →
        10 * (bestFuzzy (pyLower (stem sub)) pool).2 >
          7 * (pyLower (stem sub)).length →
        (matchOne pool sub).1 = ⟨some sub, some vp, "Matched"⟩) ∧
    ((matchOne pool sub).1.status = "Matched" ↔
        ∃ vp, (bestFuzzy (pyLower (stem sub)) pool).1 = some vp ∧
          10 * (bestFuzzy (pyLower (stem sub)) pool).2 >
            7 * (pyLower (stem sub)).length) ∧
    ((matchOne pool sub).1.status ≠ "Matched" →
        (matchOne pool sub).1 = ⟨some sub, none, "No match"⟩) := by
  have hm : matchOne pool sub =
      (match bestFuzzy (pyLower (stem sub)) pool with
        | (some vp, hi) =>
          if 10 * hi > 7 * (pyLower (stem sub)).length then
            (⟨some sub, some vp, "Matched"⟩,
              dictPop pool (pyLower (stem vp)))
          else (⟨some sub, none, "No match"⟩, pool)
        | (none, _) => (⟨some sub, none, "No match"⟩, pool)) := by
    unfold matchOne
    rw [hex]
  refine ⟨bestFuzzy_le _ pool, bestFuzzy_attained _ pool, ?_, ?_, ?_⟩
  · intro vp hvp hth
    rcases hbf : bestFuzzy (pyLower (stem sub)) pool with ⟨bm, hi⟩
    rw [hbf] at hvp hth
    dsimp only at hvp hth
    subst hvp
    rw [hm, hbf]
    dsimp only
    rw [if_pos hth]
  · rcases hbf : bestFuzzy (pyLower (stem sub)) pool with ⟨bm, hi⟩
    rw [hm, hbf]
    cases bm with
    | some vp =>
      dsimp only
      by_cases hth : 10 * hi > 7 * (pyLower (stem sub)).length
      · rw [if_pos hth]
        constructor
        · intro _; exact ⟨vp, rfl, hth⟩
        · intro _; rfl
      · rw [if_neg hth]
        constructor
        · intro habs
          exact absurd (show "No match" = "Matched" from habs) (by decide)
        · rintro ⟨vp2, hvp2, hth2⟩
          cases Option.some_inj.mp hvp2
          exact absurd hth2 hth
    | none =>
      dsimp only
      constructor
      · intro habs
        exact absurd (show "No match" = "Matched" from habs) (by decide)
      · rintro ⟨vp2, hvp2, _⟩; cases hvp2
  · intro hne
    rcases hbf : bestFuzzy (pyLower (stem sub)) pool with ⟨bm, hi⟩
    rw [hm, hbf] at hne ⊢
    cases bm with
    | some vp =>
      dsimp only at hne ⊢
      by_cases hth : 10 * hi > 7 * (pyLower (stem sub)).length
      · rw [if_pos hth] at hne
        exact absurd rfl hne
      · rw [if_neg hth]
    | none => rfl

/-- The fold step of `find_video_matches` over the subtitle list. -/
def fvmStep (acc : List FileMatch × List (String × String)) (s : String) :
    List FileMatch × List (String × String) :=
  (acc.1 ++ [(matchOne acc.2 s).1], (matchOne acc.2 s).2)

theorem find_video_matches_eq (subs vids : List String) :
    find_video_matches subs vids =
      (subs.foldl fvmStep ([], buildVideoStems vids)).1 ++
        (subs.foldl fvmStep ([], buildVideoStems vids)).2.map
          (fun p => ⟨none, some p.2, "No subtitles"⟩) := rfl

theorem fvm_foldl_acc (l : List String) :
    ∀ acc : List FileMatch × List (String × String),
      ∃ tail, (l.foldl fvmStep acc).1 = acc.1 ++ tail := by
  induction l with
  | nil => intro acc; exact ⟨[], (List.append_nil acc.1).symm⟩
  | cons s t ih =>
    intro acc
    rw [List.foldl_cons]
    rcases ih (fvmStep acc s) with ⟨tail, htail⟩
    refine ⟨[(matchOne acc.2 s).1] ++ tail, ?_⟩
    rw [htail]
    unfold fvmStep
    rw [List.append_assoc]

/-- **C6 counterexample.** The matcher is a single pass, not
exact-pass-then-fuzzy-pass: here the video stem "foo" exactly equals the
stem of subtitle "foo.srt", yet the fuzzy match of the earlier subtitle
"foob.srt" (prefix score 3 of 4 > 0.7) consumes "foo.mp4" first, and
"foo.srt" is left with "No match". -/
theorem exact_match_priority_counterexample :
    stem "foo.srt" = stem "foo.mp4" ∧
    find_video_matches ["foob.srt", "foo.srt"] ["foo.mp4"] =
      [⟨some "foob.srt", some "foo.mp4", "Matched"⟩,
       ⟨some "foo.srt", none, "No match"⟩] := by decide

/-- **C6 (amended).** Exact stem matching has priority over fuzzy
matching per subtitle, in input processing order: when a subtitle is
processed, if a remaining (unconsumed) video stem exactly equals its
lower-cased stem, it is matched to that video and fuzzy matching is not
consulted.  In particular the first subtitle in the list always gets its
exact match when one exists among the uploaded videos.  (A video may,
however, be consumed by an earlier subtitle's fuzzy match, as the
counterexample shows.) -/
theorem exact_match_priority_per_subtitle
    (pool : List (String × String)) (s v : String)
    (h : pool.lookup (pyLower (stem s)) = some v) :
    matchOne pool s =
      (⟨some s, some v, "Matched"⟩, dictPop pool (pyLower (stem s))) ∧
    ∀ rest vids, buildVideoStems vids = pool →
      (find_video_matches (s :: rest) vids).head? =
        some ⟨some s, some v, "Matched"⟩ := by
  have h1 : matchOne pool s =
      (⟨some s, some v, "Matched"⟩, dictPop pool (pyLower (stem s))) := by
    unfold matchOne
    rw [h]
  refine ⟨h1, ?_⟩
  intro rest vids hpool
  rw [find_video_matches_eq, List.foldl_cons]
  have hstep : fvmStep ([], buildVideoStems vids) s =
      ([(⟨some s, some v, "Matched"⟩ : FileMatch)],
        dictPop pool (pyLower (stem s))) := by
    unfold fvmStep
    rw [hpool, h1]
    rfl
  rw [hstep]
  rcases fvm_foldl_acc rest ([⟨some s, some v, "Matched"⟩],
    dictPop pool (pyLower (stem s))) with ⟨tail, htail⟩
  rw [htail]
  rfl

/-- Witness for the amended C6: the spec's own example
`match(["foo.srt"], ["foo.mp4", "foobar.mp4"])` — the exact match wins
over the fuzzy candidate "foobar.mp4". -/
theorem exact_match_priority_per_subtitle_witness :
    (buildVideoStems ["foo.mp4", "foobar.mp4"]).lookup (pyLower (stem "foo.srt")) =
      some "foo.mp4" ∧
    (find_video_matches ["foo.srt"] ["foo.mp4", "foobar.mp4"]).head? =
      some ⟨some "foo.srt", some "foo.mp4", "Matched"⟩ :=
  ⟨by decide,
    (exact_match_priority_per_subtitle (buildVideoStems ["foo.mp4", "foobar.mp4"])
        "foo.srt" "foo.mp4" (by decide)).2 [] ["foo.mp4", "foobar.mp4"] rfl⟩

/-- Witness for C7 at a concrete input (the spec's own example
`match(["bar.srt"], ["barely.mp4"])`: common prefix "bar" of length 3,
subtitle stem of length 3, ratio 1.0 > 0.7, so Matched). -/
theorem fuzzy_longest_common_prefix_threshold_witness :
    (buildVideoStems ["barely.mp4"]).lookup (pyLower (stem "bar.srt")) = none ∧
    ((matchOne (buildVideoStems ["barely.mp4"]) "bar.srt").1.status = "Matched" ↔
        ∃ vp, (bestFuzzy (pyLower (stem "bar.srt")) (buildVideoStems ["barely.mp4"])).1 = some vp ∧
          10 * (bestFuzzy (pyLower (stem "bar.srt")) (buildVideoStems ["barely.mp4"])).2 >
            7 * (pyLower (stem "bar.srt")).length) :=
  ⟨by decide,
    (fuzzy_longest_common_prefix_threshold (buildVideoStems ["barely.mp4"])
      "bar.srt" (by decide)).2.2.2.1⟩
